import Mathlib

/-!
Verification development for the `peace` declarative automation framework.

The definitions below are a shallow embedding of the framework's core:

* the per-item apply records (`ItemApplyPartial`, `ItemApply`) and the
  prepare / apply driver functions of
  `src/crate/rt_model/src/item_spec_wrapper.rs`;
* the params mapping-function resolver of
  `src/crate/params/src/mapping_fn_impl.rs`;
* the stored-vs-discovered state sync check and the apply command control
  flow of `src/crate/rt/src/cmds/sub/apply_cmd.rs`;
* the apply engine block of
  `src/crate/rt/src/cmd_blocks/apply_exec_cmd_block.rs`;
* the command execution pipeline of
  `src/crate/cmd_rt/src/cmd_execution.rs` and the block wrapper of
  `src/crate/cmd_rt/src/cmd_block/cmd_block_wrapper.rs`.

Async functions are embedded as pure functions over an explicit snapshot of
their inputs: each item lifecycle function is represented by the result it
would produce in the fixed execution context (`ItemSpecModel`), and channel
sends are represented by explicit event lists in emission order.

Where a definition's source file is not among the provided sources (only its
declaration, callers or the spec describe it), the definition carries a doc
comment starting with `Modelled from the spec:`.
-/

/-- Unit of progress to track, `peace_core::progress::ProgressLimit`
(referenced by the spec: `Steps(n)`, `Bytes(n)`, `Unknown`, `None`). -/
inductive ProgressLimit where
  | unknown : ProgressLimit
  | steps : Nat → ProgressLimit
  | bytes : Nat → ProgressLimit
  | noLimit : ProgressLimit
deriving DecidableEq, Repr

/-- Whether applying a change to an item is required, with the progress limit
when it is (`ApplyCheck` / `OpCheckStatus` with the `output_progress` feature):
`ExecRequired { progress_limit }` or `ExecNotRequired`. -/
inductive ApplyCheck where
  | execRequired : ProgressLimit → ApplyCheck
  | execNotRequired : ApplyCheck
deriving DecidableEq, Repr

/-- Older-revision name for `ApplyCheck` used by
`src/crate/rt_model/src/item_spec_wrapper.rs`. -/
abbrev OpCheckStatus := ApplyCheck

/-- Modelled from the spec: `ItemApplyPartial` (the `outcomes` module of
`rt_model` is not among the sources; usage is visible in
`item_spec_wrapper.rs`).  Information about an item's state across an apply,
accumulated step by step; every field starts as `None`. -/
structure ItemApplyPartial (S D : Type) where
  stateSaved : Option S := none
  stateCurrent : Option S := none
  stateTarget : Option S := none
  stateDiff : Option D := none
  opCheckStatus : Option OpCheckStatus := none
deriving DecidableEq, Repr

/-- `ItemApplyPartial::new()`: all fields `None`. -/
def ItemApplyPartial.new {S D : Type} : ItemApplyPartial S D := {}

/-- Modelled from the spec: `ItemApply` (the `outcomes` module of `rt_model`
is not among the sources).  Per-item record of an apply attempt; the spec's
data model (§3) gives every field as an `Option`, with the invariant that a
successfully prepared record has `state_current`, `state_target`,
`state_diff` and `apply_check` all set. -/
structure ItemApply (S D : Type) where
  stateSaved : Option S
  stateCurrent : Option S
  stateTarget : Option S
  stateDiff : Option D
  opCheckStatus : Option OpCheckStatus
  stateApplied : Option S
deriving DecidableEq, Repr

/-- Modelled from the spec: `ItemApply::try_from((item_apply_partial,
state_applied))` — succeeds exactly when the four required fields of the
partial record are populated. -/
def ItemApply.tryFrom {S D : Type} (p : ItemApplyPartial S D) (stateApplied : Option S) :
    Option (ItemApply S D) :=
  match p.stateCurrent, p.stateTarget, p.stateDiff, p.opCheckStatus with
  | some sc, some st, some sd, some ocs =>
      some
        { stateSaved := p.stateSaved
          stateCurrent := some sc
          stateTarget := some st
          stateDiff := some sd
          opCheckStatus := some ocs
          stateApplied := stateApplied }
  | _, _, _, _ => none

/-- Embedding of one item's lifecycle functions (`ItemSpec` in
`src/crate/cfg`): each async, resource-reading function is represented by the
result it produces in the fixed execution context of one prepare/apply run.
`S` is the item's `State`, `D` its `StateDiff`, `E` the application error
type. -/
structure ItemSpecModel (S D E : Type) where
  /-- Result of `state_clean(data)`. -/
  stateCleanResult : Except E S
  /-- Result of `try_state_current(op_ctx, data)`. -/
  tryStateCurrentResult : Except E (Option S)
  /-- Result of `state_current(op_ctx, data)`. -/
  stateCurrentResult : Except E S
  /-- Result of `state_desired(op_ctx, data)` (newer revisions: `state_goal`). -/
  stateDesiredResult : Except E S
  /-- Result of `state_diff(data, state_base, state_desired)`. -/
  stateDiffResult : S → S → Except E D
  /-- Result of `apply_check(data, state_current, state_desired, state_diff)`. -/
  applyCheckResult : S → S → D → Except E OpCheckStatus
  /-- Result of `apply(op_ctx, data, state_current, state_desired, state_diff)`. -/
  applyResult : S → S → D → Except E S
  /-- Result of `apply_dry(op_ctx, data, state_current, state_desired, state_diff)`. -/
  applyDryResult : S → S → D → Except E S

/-- `ItemSpecWrapper::ensure_prepare`
(src/crate/rt_model/src/item_spec_wrapper.rs lines 410-477): discover
`state_current`, then `state_desired`, compute the diff and the apply check;
on `ExecNotRequired` pre-set `state_applied` to the current state.  Each
failure returns the error with the partial record accumulated so far.  The
outer `Option` models the `.expect("unreachable: All the fields are set
above.")` on `ItemApply::try_from`: `none` is the panic that the source
asserts cannot happen. -/
def ItemSpecWrapper.ensurePrepare {S D E : Type} (item : ItemSpecModel S D E) :
    Option (Except (E × ItemApplyPartial S D) (ItemApply S D)) :=
  let p0 : ItemApplyPartial S D := ItemApplyPartial.new
  match item.stateCurrentResult with
  | .error e => some (.error (e, p0))
  | .ok stateCurrent =>
    let p1 := { p0 with stateCurrent := some stateCurrent }
    match item.stateDesiredResult with
    | .error e => some (.error (e, p1))
    | .ok stateDesired =>
      let p2 := { p1 with stateTarget := some stateDesired }
      match item.stateDiffResult stateCurrent stateDesired with
      | .error e => some (.error (e, p2))
      | .ok stateDiff =>
        let p3 := { p2 with stateDiff := some stateDiff }
        match item.applyCheckResult stateCurrent stateDesired stateDiff with
        | .error e => some (.error (e, p3))
        | .ok opCheckStatus =>
          let p4 := { p3 with opCheckStatus := some opCheckStatus }
          let stateApplied :=
            match opCheckStatus with
            | .execRequired _ => none
            | .execNotRequired => p4.stateCurrent
          (ItemApply.tryFrom p4 stateApplied).map .ok

/-- `ItemSpecWrapper::clean_prepare`
(src/crate/rt_model/src/item_spec_wrapper.rs lines 524-598): try to discover
`state_current`, falling back to `state_clean` when discovery returns `None`;
the target state is `state_clean`; then diff, apply check, and the
`ExecNotRequired` short-circuit, as in `ensure_prepare`. -/
def ItemSpecWrapper.cleanPrepare {S D E : Type} (item : ItemSpecModel S D E) :
    Option (Except (E × ItemApplyPartial S D) (ItemApply S D)) :=
  let p0 : ItemApplyPartial S D := ItemApplyPartial.new
  match item.tryStateCurrentResult with
  | .error e => some (.error (e, p0))
  | .ok stateCurrentOpt =>
    let afterCurrent : Except (E × ItemApplyPartial S D) (ItemApplyPartial S D) :=
      match stateCurrentOpt with
      | some stateCurrent => .ok { p0 with stateCurrent := some stateCurrent }
      | none =>
        match item.stateCleanResult with
        | .ok stateClean => .ok { p0 with stateCurrent := some stateClean }
        | .error e => .error (e, p0)
    match afterCurrent with
    | .error ep => some (.error ep)
    | .ok p1 =>
      match item.stateCleanResult with
      | .error e => some (.error (e, p1))
      | .ok stateClean =>
        let p2 := { p1 with stateTarget := some stateClean }
        match p2.stateCurrent with
        | none => none
        | some stateCurrent =>
          match item.stateDiffResult stateCurrent stateClean with
          | .error e => some (.error (e, p2))
          | .ok stateDiff =>
            let p3 := { p2 with stateDiff := some stateDiff }
            match item.applyCheckResult stateCurrent stateClean stateDiff with
            | .error e => some (.error (e, p3))
            | .ok opCheckStatus =>
              let p4 := { p3 with opCheckStatus := some opCheckStatus }
              let stateApplied :=
                match opCheckStatus with
                | .execRequired _ => none
                | .execNotRequired => p4.stateCurrent
              (ItemApply.tryFrom p4 stateApplied).map .ok

/-- `ItemSpecWrapper::apply_exec`
(src/crate/rt_model/src/item_spec_wrapper.rs lines 600-643): on
`ExecRequired` run the item's `apply` and store its result in
`state_applied`; on `ExecNotRequired` do nothing.  The outer `Option` models
the downcast panic and the (source-side unrepresentable) case of a required
field being absent: in the source these fields are non-optional by type. -/
def ItemSpecWrapper.applyExec {S D E : Type} (item : ItemSpecModel S D E)
    (itemApply : ItemApply S D) : Option (Except E (ItemApply S D)) :=
  match itemApply.opCheckStatus with
  | some (.execRequired _) =>
    match itemApply.stateCurrent, itemApply.stateTarget, itemApply.stateDiff with
    | some sc, some st, some sd =>
      match item.applyResult sc st sd with
      | .ok stateAppliedNext => some (.ok { itemApply with stateApplied := some stateAppliedNext })
      | .error e => some (.error e)
    | _, _, _ => none
  | some .execNotRequired => some (.ok itemApply)
  | none => none

/-- `ItemSpecWrapper::apply_exec_dry`
(src/crate/rt_model/src/item_spec_wrapper.rs lines 479-522): as
`apply_exec`, dispatching to the item's `apply_dry`. -/
def ItemSpecWrapper.applyExecDry {S D E : Type} (item : ItemSpecModel S D E)
    (itemApply : ItemApply S D) : Option (Except E (ItemApply S D)) :=
  match itemApply.opCheckStatus with
  | some (.execRequired _) =>
    match itemApply.stateCurrent, itemApply.stateTarget, itemApply.stateDiff with
    | some sc, some st, some sd =>
      match item.applyDryResult sc st sd with
      | .ok stateAppliedDry => some (.ok { itemApply with stateApplied := some stateAppliedDry })
      | .error e => some (.error e)
    | _, _, _ => none
  | some .execNotRequired => some (.ok itemApply)
  | none => none

/-- Modelled from the spec: `ItemWrapper::clean_prepare` of the newer
revision — the implementation behind the `ItemRt::clean_prepare` declaration
(src/crate/rt_model/src/item_rt.rs lines 160-180) is not among the sources.
Per the spec (§4.4), `state_current` comes from the passed-in, pre-discovered
`StatesCurrent` (this item's entry is `stateCurrentPre`), with fallback to
`state_clean` if the item has no discovered state; the rest follows
`ensure_prepare`'s shape with `state_clean` as the target. -/
def ItemWrapper.cleanPrepare {S D E : Type} (item : ItemSpecModel S D E)
    (stateCurrentPre : Option S) :
    Option (Except (E × ItemApplyPartial S D) (ItemApply S D)) :=
  let p0 : ItemApplyPartial S D := ItemApplyPartial.new
  let afterCurrent : Except (E × ItemApplyPartial S D) (ItemApplyPartial S D) :=
    match stateCurrentPre with
    | some stateCurrent => .ok { p0 with stateCurrent := some stateCurrent }
    | none =>
      match item.stateCleanResult with
      | .ok stateClean => .ok { p0 with stateCurrent := some stateClean }
      | .error e => .error (e, p0)
  match afterCurrent with
  | .error ep => some (.error ep)
  | .ok p1 =>
    match item.stateCleanResult with
    | .error e => some (.error (e, p1))
    | .ok stateClean =>
      let p2 := { p1 with stateTarget := some stateClean }
      match p2.stateCurrent with
      | none => none
      | some stateCurrent =>
        match item.stateDiffResult stateCurrent stateClean with
        | .error e => some (.error (e, p2))
        | .ok stateDiff =>
          let p3 := { p2 with stateDiff := some stateDiff }
          match item.applyCheckResult stateCurrent stateClean stateDiff with
          | .error e => some (.error (e, p3))
          | .ok opCheckStatus =>
            let p4 := { p3 with opCheckStatus := some opCheckStatus }
            let stateApplied :=
              match opCheckStatus with
              | .execRequired _ => none
              | .execNotRequired => p4.stateCurrent
            (ItemApply.tryFrom p4 stateApplied).map .ok

/-- Failure to borrow from the Resource store
(`peace_resources::BorrowFail`, spec §4.1): the type is absent, or the
runtime aliasing discipline is violated. -/
inductive BorrowFail where
  | valueNotFound : BorrowFail
  | borrowConflictImm : BorrowFail
  | borrowConflictMut : BorrowFail
deriving DecidableEq, Repr

/-- One breadcrumb of value resolution (`peace_params::FieldNameAndType`):
the field name and the field's type name. -/
structure FieldNameAndType where
  fieldName : String
  typeName : String
deriving DecidableEq, Repr

/-- Breadcrumb trail recorded while resolving a value
(`peace_params::ValueResolutionCtx`, spec §4.2). -/
abbrev ValueResolutionCtx := List FieldNameAndType

/-- Failure to resolve an item's params from the Resource store
(`peace_params::ParamsResolveError`), restricted to the variants produced by
`MappingFnImpl` in src/crate/params/src/mapping_fn_impl.rs. -/
inductive ParamsResolveError where
  | fromMap (valueResolutionCtx : ValueResolutionCtx) (fromTypeName : String)
  | fromMapBorrowConflict (valueResolutionCtx : ValueResolutionCtx) (fromTypeName : String)
deriving DecidableEq, Repr

/-- The breadcrumb push at the top of `MappingFnImpl::map` / `try_map`: when
the mapping fn has a field name, record `(field_name, type_name::<T>())`. -/
def MappingFnImpl.ctxPushed (fieldName : Option String) (tTypeName : String)
    (ctx : ValueResolutionCtx) : ValueResolutionCtx :=
  match fieldName with
  | some f => ctx ++ [⟨f, tTypeName⟩]
  | none => ctx

/-- `MappingFnImpl::map` (src/crate/params/src/mapping_fn_impl.rs lines
55-100), for the one-argument instance in the sources.  `a0Borrow` is the
result of `resources.try_borrow::<A0>()`; `a0TypeName` stands for
`type_name::<A0>()`. -/
def MappingFnImpl.map {T A0 : Type} (fieldName : Option String)
    (tTypeName a0TypeName : String) (fnMap : A0 → Option T)
    (a0Borrow : Except BorrowFail A0) (ctx : ValueResolutionCtx) :
    Except ParamsResolveError T :=
  let ctx' := MappingFnImpl.ctxPushed fieldName tTypeName ctx
  match a0Borrow with
  | .ok a0 =>
    match fnMap a0 with
    | some t => .ok t
    | none => .error (.fromMap ctx' a0TypeName)
  | .error .valueNotFound => .error (.fromMap ctx' a0TypeName)
  | .error .borrowConflictImm => .error (.fromMapBorrowConflict ctx' a0TypeName)
  | .error .borrowConflictMut => .error (.fromMapBorrowConflict ctx' a0TypeName)

/-- `MappingFnImpl::try_map` (src/crate/params/src/mapping_fn_impl.rs lines
102-138): an absent argument is `Ok(None)` instead of an error; a borrow
conflict is still an error. -/
def MappingFnImpl.tryMap {T A0 : Type} (fieldName : Option String)
    (tTypeName a0TypeName : String) (fnMap : A0 → Option T)
    (a0Borrow : Except BorrowFail A0) (ctx : ValueResolutionCtx) :
    Except ParamsResolveError (Option T) :=
  let ctx' := MappingFnImpl.ctxPushed fieldName tTypeName ctx
  match a0Borrow with
  | .ok a0 => .ok (fnMap a0)
  | .error .valueNotFound => .ok none
  | .error .borrowConflictImm => .error (.fromMapBorrowConflict ctx' a0TypeName)
  | .error .borrowConflictMut => .error (.fromMapBorrowConflict ctx' a0TypeName)

/-- Error from the apply command's stored-state sync guard
(`peace_rt_model::ApplyCmdError`; definition file not among the sources,
variants visible at src/crate/rt/src/cmds/sub/apply_cmd.rs lines 479-488). -/
inductive ApplyCmdError where
  | statesCurrentOutOfSync : ApplyCmdError
  | statesGoalOutOfSync : ApplyCmdError
deriving DecidableEq, Repr

/-- Failure to fetch a `CmdBlock`'s input from the Resource store
(`peace_resources::ResourceFetchError`), reduced to the fetched resource's
type name. -/
structure ResourceFetchError where
  resourceName : String
deriving DecidableEq, Repr

/-- Modelled from the spec: the diagnostic built by
`CmdExecutionErrorBuilder::build` (its file is not among the sources) when a
block's input fetch fails — it enumerates the preceding blocks' outcome type
names so the user can see which block should have produced the input
(spec §4.7 step 3). -/
structure CmdExecutionError where
  cmdBlockIndex : Nat
  resourceFetchError : ResourceFetchError
  precedingOutcomeNames : List (List String)
deriving DecidableEq, Repr

/-- Application error type: the framework's `Error` variants used by the
embedded code, plus opaque application-specific errors (`app n`), modelling
`E: From<peace_rt_model::Error>`. -/
inductive AppError where
  | applyCmdError (error : ApplyCmdError)
  | cmdExecutionError (error : CmdExecutionError)
  | app (code : Nat)
deriving DecidableEq, Repr

/-- Raw (boxed) per-item state lookup,
`States::get_raw(item_id)` over an insertion-ordered map: the first entry
with the given item id. -/
def getRaw {Raw : Type} (states : List (String × Raw)) (itemId : String) : Option Raw :=
  (states.find? (fun entry => entry.1 = itemId)).map (fun entry => entry.2)

/-- One item as seen by the sync check: its id and its type-erased
`ItemRt::state_eq` comparison. -/
structure SyncItemModel (Raw E : Type) where
  id : String
  stateEq : Raw → Raw → Except E Bool

/-- `ApplyCmd::states_in_sync` (src/crate/rt/src/cmds/sub/apply_cmd.rs lines
731-771): fold the flow's items in insertion order; both states absent is
tolerated, exactly one present breaks with `false`, both present defer to
the item's `state_eq`, breaking on `false` or on error. -/
def ApplyCmd.statesInSync {Raw E : Type} (items : List (SyncItemModel Raw E))
    (statesStored states : List (String × Raw)) : Except E Bool :=
  match items with
  | [] => .ok true
  | item :: rest =>
    match getRaw statesStored item.id, getRaw states item.id with
    | none, none => ApplyCmd.statesInSync rest statesStored states
    | none, some _ => .ok false
    | some _, none => .ok false
    | some stateStored, some state =>
      match item.stateEq stateStored state with
      | .ok true => ApplyCmd.statesInSync rest statesStored states
      | .ok false => .ok false
      | .error e => .error e

/-- State of a streamed graph traversal
(`fn_graph::StreamOutcomeState`, spec §4.5). -/
inductive StreamOutcomeState where
  | notStarted : StreamOutcomeState
  | interrupted : StreamOutcomeState
  | finished : StreamOutcomeState
deriving DecidableEq, Repr

/-- Result of a streamed graph traversal (`fn_graph::StreamOutcome`):
whether it ran to completion and the accumulated value. -/
structure StreamOutcome (A : Type) where
  state : StreamOutcomeState
  value : A
deriving DecidableEq, Repr

/-- `StreamOutcome::map`: map the accumulated value. -/
def StreamOutcome.mapValue {A B : Type} (f : A → B) (so : StreamOutcome A) : StreamOutcome B :=
  { state := so.state, value := f so.value }

/-- Modelled from the spec: `CmdOutcome` (§3; the `outcomes` module of
`rt_model` is not among the sources): outcome of a command execution. -/
inductive CmdOutcome (V : Type) where
  | complete (value : V)
  | blockInterrupted (streamOutcome : StreamOutcome V)
  | itemError (streamOutcome : StreamOutcome V) (errors : List (String × AppError))
  | executionError (error : AppError)
deriving DecidableEq, Repr

/-- Error from a `CmdBlock` (`peace_cmd_rt::CmdBlockError`; definition file
not among the sources, variants visible in
src/crate/cmd_rt/src/cmd_execution.rs and cmd_block_wrapper.rs): input fetch
failure, block logic error, or an interrupted / item-failed outcome carried
for the execution to return. -/
inductive CmdBlockError (V : Type) where
  | inputFetch (error : ResourceFetchError)
  | exec (error : AppError)
  | interrupt (cmdOutcome : CmdOutcome V)
  | itemError (cmdOutcome : CmdOutcome V)
deriving DecidableEq, Repr

/-- A type-erased `CmdBlock` as the execution pipeline sees it
(`CmdBlockRtBox`): its `exec` transforms the Resource store and either
succeeds or yields a `CmdBlockError`; the type-name lists are the
diagnostics surface (`input_type_names` / `outcome_type_names`). -/
structure CmdBlockModel (Res V : Type) where
  exec : Res → Res × Option (CmdBlockError V)
  inputTypeNames : List String
  outcomeTypeNames : List String

/-- Modelled from the spec: `CmdExecutionErrorBuilder::build` (its file is
not among the sources) — build the input-fetch diagnostic from the block
index, the fetch error, and the outcome type names of the preceding blocks
(spec §4.7: "a diagnostic enumerating preceding blocks' output types"). -/
def CmdExecutionErrorBuilder.build {Res V : Type} (cmdBlocks : List (CmdBlockModel Res V))
    (cmdBlockIndex : Nat) (resourceFetchError : ResourceFetchError) : CmdExecutionError :=
  { cmdBlockIndex := cmdBlockIndex
    resourceFetchError := resourceFetchError
    precedingOutcomeNames :=
      (cmdBlocks.take cmdBlockIndex).map (fun cmdBlock => cmdBlock.outcomeTypeNames) }

/-- The block fold of `cmd_outcome_task_interruptible`
(src/crate/cmd_rt/src/cmd_execution.rs lines 178-248): run the enumerated
blocks in order over the Resource store, stopping at the first block whose
`exec` errors (`try_fold` short-circuit).  Returns the final store, the
first failure (index and error) if any, and the indices of the blocks whose
`exec` was invoked, in invocation order.  Note: no interruptibility handle
is polled between blocks — the source carries a TODO for that check at
lines 213-214. -/
def CmdExecution.cmdBlocksExecFrom {Res V : Type} (cmdBlocks : List (CmdBlockModel Res V))
    (idx : Nat) (res : Res) : Res × Option (Nat × CmdBlockError V) × List Nat :=
  match cmdBlocks with
  | [] => (res, none, [])
  | cmdBlock :: rest =>
    match cmdBlock.exec res with
    | (res', none) =>
      let (resFinal, failure, ran) := CmdExecution.cmdBlocksExecFrom rest (idx + 1) res'
      (resFinal, failure, idx :: ran)
    | (res', some cmdBlockError) => (res', some (idx, cmdBlockError), [idx])

/-- The block fold started at index 0. -/
def CmdExecution.cmdBlocksExec {Res V : Type} (cmdBlocks : List (CmdBlockModel Res V))
    (res : Res) : Res × Option (Nat × CmdBlockError V) × List Nat :=
  CmdExecution.cmdBlocksExecFrom cmdBlocks 0 res

/-- `outcome_extract` (src/crate/cmd_rt/src/cmd_execution.rs lines 260-319):
map the fold result to the execution's outcome.  `InputFetch` becomes the
built diagnostic error, `Exec` propagates the block's error, `ItemError` and
`Interrupt` return the carried `CmdOutcome` as the execution's `Ok` value,
and with no failure the outcome is `Complete` with
`execution_outcome_fetch` applied to the final Resource store. -/
def CmdExecution.outcomeExtract {Res V : Type} (cmdBlocks : List (CmdBlockModel Res V))
    (executionOutcomeFetch : Res → V)
    (foldResult : Res × Option (Nat × CmdBlockError V)) :
    Except AppError (CmdOutcome V) :=
  match foldResult with
  | (res, none) => .ok (.complete (executionOutcomeFetch res))
  | (_, some (cmdBlockIndex, cmdBlockError)) =>
    match cmdBlockError with
    | .inputFetch resourceFetchError =>
      .error (.cmdExecutionError
        (CmdExecutionErrorBuilder.build cmdBlocks cmdBlockIndex resourceFetchError))
    | .exec error => .error error
    | .itemError cmdOutcome => .ok cmdOutcome
    | .interrupt cmdOutcome => .ok cmdOutcome

/-- `cmd_outcome_task_interruptible` composed with `outcome_extract`
(src/crate/cmd_rt/src/cmd_execution.rs): the whole execution. -/
def CmdExecution.cmdOutcomeTask {Res V : Type} (cmdBlocks : List (CmdBlockModel Res V))
    (executionOutcomeFetch : Res → V) (res : Res) : Except AppError (CmdOutcome V) :=
  let (resFinal, failure, _ran) := CmdExecution.cmdBlocksExec cmdBlocks res
  CmdExecution.outcomeExtract cmdBlocks executionOutcomeFetch (resFinal, failure)

/-- Outcome of a single `CmdBlock`'s own logic
(`peace_cmd_model::CmdBlockOutcome`; not among the sources, usage visible in
src/crate/cmd_rt/src/cmd_block/cmd_block_wrapper.rs): a single value, or an
item-wise streamed outcome with per-item errors. -/
inductive CmdBlockOutcome (B : Type) where
  | single (blockOutcome : B)
  | itemWise (streamOutcome : StreamOutcome B) (errors : List (String × AppError))
deriving DecidableEq, Repr

/-- `CmdBlockWrapper::exec` (src/crate/cmd_rt/src/cmd_block/cmd_block_wrapper.rs
lines 85-162): fetch the input (`?` wraps the failure as
`CmdBlockError::InputFetch`), run the block (errors wrap as `Exec`), then
map the block outcome: a `Single` or error-free `Finished` stream yields the
outcome to insert; an error-free `Interrupted` stream yields
`CmdBlockError::Interrupt(CmdOutcome::BlockInterrupted)`; non-empty item
errors yield `CmdBlockError::ItemError(CmdOutcome::ItemError)`; in both, the
partial block outcome is mapped by `fn_partial_exec_handler`.  The outer
`Option` models the `unreachable!` on `StreamOutcomeState::NotStarted`. -/
def CmdBlockWrapper.execModel {I B V : Type} (fnPartialExecHandler : B → V)
    (inputFetchResult : Except ResourceFetchError I)
    (blockExecResult : I → Except AppError (CmdBlockOutcome B)) :
    Option (Except (CmdBlockError V) (Option B)) :=
  match inputFetchResult with
  | .error resourceFetchError => some (.error (.inputFetch resourceFetchError))
  | .ok input =>
    match blockExecResult input with
    | .error error => some (.error (.exec error))
    | .ok (.single blockOutcome) => some (.ok (some blockOutcome))
    | .ok (.itemWise streamOutcome errors) =>
      if errors.isEmpty then
        match streamOutcome.state with
        | .notStarted => none
        | .interrupted =>
          some (.error (.interrupt
            (.blockInterrupted (StreamOutcome.mapValue fnPartialExecHandler streamOutcome))))
        | .finished => some (.ok (some streamOutcome.value))
      else
        some (.error (.itemError
          (.itemError (StreamOutcome.mapValue fnPartialExecHandler streamOutcome) errors)))

/-- Whether an apply targets the goal state or the clean state
(`ApplyFor` in src/crate/rt/src/cmd_blocks/apply_exec_cmd_block.rs lines
509-516 and src/crate/rt/src/cmds/sub/apply_cmd.rs lines 1064-1068). -/
inductive ApplyFor where
  | ensure : ApplyFor
  | clean : ApplyFor
deriving DecidableEq, Repr

/-- Type-state tag of the states produced by an apply
(`Ensured` / `EnsuredDry` / `Cleaned` / `CleanedDry` in
`peace_resources::states::ts`). -/
inductive StatesTsApply where
  | ensured : StatesTsApply
  | ensuredDry : StatesTsApply
  | cleaned : StatesTsApply
  | cleanedDry : StatesTsApply
deriving DecidableEq, Repr

/-- Type-state tag of the apply's target states (`StatesTsApplyExt::TsTarget`):
`Goal` or `Clean`. -/
inductive TsTargetTag where
  | goal : TsTargetTag
  | clean : TsTargetTag
deriving DecidableEq, Repr

/-- `StatesTsApplyExt::apply_for` for the four instances
(src/crate/rt/src/cmd_blocks/apply_exec_cmd_block.rs lines 570-616). -/
def StatesTsApply.applyFor : StatesTsApply → ApplyFor
  | .ensured => .ensure
  | .ensuredDry => .ensure
  | .cleaned => .clean
  | .cleanedDry => .clean

/-- `StatesTsApplyExt::TsTarget` for the four instances. -/
def StatesTsApply.tsTarget : StatesTsApply → TsTargetTag
  | .ensured => .goal
  | .ensuredDry => .goal
  | .cleaned => .clean
  | .cleanedDry => .clean

/-- `StatesTsApplyExt::dry_run` for the four instances. -/
def StatesTsApply.dryRun : StatesTsApply → Bool
  | .ensured => false
  | .ensuredDry => true
  | .cleaned => false
  | .cleanedDry => true

/-- Modelled from the spec: `BUFFERED_FUTURES_MAX` bounds concurrent
in-flight item tasks (§4.5); it is defined at the `peace_rt` crate root,
which is not among the sources, so the numeric value here is nominal — the
theorems only use that both streaming directions pass this same bound. -/
def bufferedFuturesMax : Nat := 32

/-- The arguments a streamed traversal is invoked with: the concurrency
limit, whether the graph is iterated in reverse, and whether an
interruptibility handle is threaded in via `StreamOpts`. -/
structure StreamInvocation where
  limit : Nat
  reverse : Bool
  interruptible : Bool
deriving DecidableEq, Repr

/-- The traversal invoked by `ApplyExecCmdBlock::exec`
(src/crate/rt/src/cmd_blocks/apply_exec_cmd_block.rs lines 381-428):
`try_for_each_concurrent_with(BUFFERED_FUTURES_MAX, StreamOpts::new()
.interruptibility(..))` for `Ensure`, with an additional `.rev()` for
`Clean`. -/
def ApplyExecCmdBlock.streamInvocation : ApplyFor → StreamInvocation
  | .ensure => { limit := bufferedFuturesMax, reverse := false, interruptible := true }
  | .clean => { limit := bufferedFuturesMax, reverse := true, interruptible := true }

/-- The traversal invoked by `ApplyCmd::exec_internal`
(src/crate/rt/src/cmds/sub/apply_cmd.rs lines 426-461):
`try_for_each_concurrent(BUFFERED_FUTURES_MAX, ..)` for `Ensure`,
`try_for_each_concurrent_rev(BUFFERED_FUTURES_MAX, ..)` for `Clean` (no
`StreamOpts`, so no interruptibility handle). -/
def ApplyCmd.streamInvocation : ApplyFor → StreamInvocation
  | .ensure => { limit := bufferedFuturesMax, reverse := false, interruptible := false }
  | .clean => { limit := bufferedFuturesMax, reverse := true, interruptible := false }

/-- Modelled from the spec: the interruptible traversal operator of the item
graph (`fn_graph::FnGraph::try_for_each_concurrent*`, §4.5 and §5
Cancellation) — a sequential model of the stream: the interruptibility
handle is polled before each item is dequeued (`interruptPolled k` is the
poll before the `k`-th dequeue); on interrupt no further item starts and the
traversal reports `Interrupted` with the items processed so far. -/
def ItemGraph.streamInterruptibleGo {A : Type} (interruptPolled : Nat → Bool) (k : Nat)
    (acc : List A) : List A → StreamOutcome (List A)
  | [] => { state := .finished, value := acc.reverse }
  | item :: rest =>
    if interruptPolled k then { state := .interrupted, value := acc.reverse }
    else ItemGraph.streamInterruptibleGo interruptPolled (k + 1) (item :: acc) rest

/-- Modelled from the spec: the interruptible traversal started at poll 0
with no items processed. -/
def ItemGraph.streamInterruptible {A : Type} (interruptPolled : Nat → Bool)
    (items : List A) : StreamOutcome (List A) :=
  ItemGraph.streamInterruptibleGo interruptPolled 0 [] items

/-- The item sequence `ApplyExecCmdBlock::exec` streams: the graph's items in
insertion order for `Ensure`, and in reverse for `Clean`, with the
interruptibility handle polled between items. -/
def ApplyExecCmdBlock.execStream {A : Type} (applyFor : ApplyFor)
    (interruptPolled : Nat → Bool) (items : List A) : StreamOutcome (List A) :=
  match applyFor with
  | .ensure => ItemGraph.streamInterruptible interruptPolled items
  | .clean => ItemGraph.streamInterruptible interruptPolled items.reverse

/-- `Map::insert` over an insertion-ordered association list (used for
`StatesMut::insert_raw` and the errors map): replace the value under an
existing key, else append. -/
def insertRaw {V : Type} : List (String × V) → String → V → List (String × V)
  | [], itemId, v => [(itemId, v)]
  | entry :: rest, itemId, v =>
    if entry.1 = itemId then (itemId, v) :: rest
    else entry :: insertRaw rest itemId v

/-- Per-item outcome of an apply, sent over the block's outcomes channel
(`ItemApplyOutcome` in src/crate/rt/src/cmd_blocks/apply_exec_cmd_block.rs
lines 538-558, duplicated in src/crate/rt/src/cmds/sub/apply_cmd.rs lines
1042-1062).  `Raw` is the boxed, type-erased state/diff value type. -/
inductive ItemApplyOutcomeEvt (Raw E : Type) where
  | prepareFail (itemId : String) (itemApplyPartialBoxed : ItemApplyPartial Raw Raw) (error : E)
  | success (itemId : String) (itemApplyBoxed : ItemApply Raw Raw)
  | fail (itemId : String) (itemApplyBoxed : ItemApply Raw Raw) (error : E)
deriving DecidableEq, Repr

/-- `ApplyExecCmdBlock`'s outcome accumulator together with the errors map of
the block's `CmdOutcome`: `(StatesPrevious, StatesMut<StatesTs>,
StatesMut<TsTarget>)` and `errors`. -/
structure ApplyExecCmdBlockAcc (Raw E : Type) where
  statesPrevious : List (String × Raw)
  statesAppliedMut : List (String × Raw)
  statesTargetMut : List (String × Raw)
  errors : List (String × E)
deriving DecidableEq, Repr

/-- `ApplyExecCmdBlock::outcome_acc_init`
(src/crate/rt/src/cmd_blocks/apply_exec_cmd_block.rs lines 320-329): the
previous and applied buckets start as the input's current states, the target
bucket as the input's target states. -/
def ApplyExecCmdBlock.outcomeAccInit {Raw E : Type}
    (input : List (String × Raw) × List (String × Raw)) : ApplyExecCmdBlockAcc Raw E :=
  { statesPrevious := input.1
    statesAppliedMut := input.1
    statesTargetMut := input.2
    errors := [] }

/-- `ApplyExecCmdBlock::outcome_collate`
(src/crate/rt/src/cmd_blocks/apply_exec_cmd_block.rs lines 431-506): collate
one per-item outcome into the block's outcome.  `PrepareFail` and `Fail`
record the error; a `Some` applied state is written into the applied bucket;
the target state is written into the target bucket only when
`apply_for` is `Ensure`. -/
def ApplyExecCmdBlock.outcomeCollate {Raw E : Type} (statesTs : StatesTsApply)
    (acc : ApplyExecCmdBlockAcc Raw E) (outcomePartial : ItemApplyOutcomeEvt Raw E) :
    ApplyExecCmdBlockAcc Raw E :=
  let applyFor := statesTs.applyFor
  match outcomePartial with
  | .prepareFail itemId itemApplyPartialBoxed error =>
    let acc1 := { acc with errors := insertRaw acc.errors itemId error }
    match applyFor with
    | .ensure =>
      match itemApplyPartialBoxed.stateTarget with
      | some stateTarget =>
        { acc1 with statesTargetMut := insertRaw acc1.statesTargetMut itemId stateTarget }
      | none => acc1
    | .clean => acc1
  | .success itemId itemApplyBoxed =>
    let acc1 :=
      match itemApplyBoxed.stateApplied with
      | some stateApplied =>
        { acc with statesAppliedMut := insertRaw acc.statesAppliedMut itemId stateApplied }
      | none => acc
    match applyFor with
    | .ensure =>
      match itemApplyBoxed.stateTarget with
      | some stateTarget =>
        { acc1 with statesTargetMut := insertRaw acc1.statesTargetMut itemId stateTarget }
      | none => acc1
    | .clean => acc1
  | .fail itemId itemApplyBoxed error =>
    let acc1 := { acc with errors := insertRaw acc.errors itemId error }
    let acc2 :=
      match itemApplyBoxed.stateApplied with
      | some stateApplied =>
        { acc1 with statesAppliedMut := insertRaw acc1.statesAppliedMut itemId stateApplied }
      | none => acc1
    match applyFor with
    | .ensure =>
      match itemApplyBoxed.stateTarget with
      | some stateTarget =>
        { acc2 with statesTargetMut := insertRaw acc2.statesTargetMut itemId stateTarget }
      | none => acc2
    | .clean => acc2

/-- Modelled from the spec: `ApplyStoredStateSync` — which stored states must
be in sync with discovered states before an apply proceeds (§4.10; its file
`apply_stored_state_sync.rs` is not among the sources): `None`, `Current`,
`Goal`, or `Both`. -/
inductive ApplyStoredStateSync where
  | noSync : ApplyStoredStateSync
  | current : ApplyStoredStateSync
  | goal : ApplyStoredStateSync
  | both : ApplyStoredStateSync
deriving DecidableEq, Repr

/-- Result of a states-discover sub-command as `ApplyCmd` consumes it
(src/crate/rt/src/cmds/sub/apply_cmd.rs lines 616-657 and 688-729): a
command-logic error, an outcome carrying item errors (mapped into a
`DiscoverOutcomeError` event with the partially discovered states and an
empty goal bucket), or the discovered states. -/
inductive DiscoverResult (Raw : Type) where
  | cmdError (error : AppError)
  | itemErrors (statesValue statesGoalValue : List (String × Raw))
      (errors : List (String × AppError))
  | ok (states : List (String × Raw))
deriving DecidableEq, Repr

/-- Sub-outcomes of apply execution sent over the outcomes channel
(`ApplyExecOutcome` in src/crate/rt/src/cmds/sub/apply_cmd.rs lines
984-1040), in emission order. -/
inductive ApplyExecOutcomeEvt (Raw : Type) where
  | statesCurrentStoredRead (statesCurrentStored : List (String × Raw))
  | statesCurrentOutOfSync
  | statesCurrentReadCmdError (error : AppError)
  | statesGoalOutOfSync
  | statesGoalReadCmdError (error : AppError)
  | discoverCurrentCmdError (error : AppError)
  | discoverGoalCmdError (error : AppError)
  | discoverOutcomeError (statesValue statesGoalValue : List (String × Raw))
      (errors : List (String × AppError))
  | statesDowncastError (error : AppError)
  | itemApply (outcome : ItemApplyOutcomeEvt Raw AppError)
deriving DecidableEq, Repr

/-- The oracles `ApplyCmd::exec_internal` consumes: results of the read and
discover sub-commands, the flow's items for the sync check, and the per-item
outcomes the apply stream would emit once reached. -/
structure ApplyCmdOracle (Raw : Type) where
  statesCurrentRead : Except AppError (List (String × Raw))
  statesCurrentDiscover : DiscoverResult Raw
  statesGoalRead : Except AppError (List (String × Raw))
  statesGoalDiscover : DiscoverResult Raw
  syncItems : List (SyncItemModel Raw AppError)
  itemEvents : List (ItemApplyOutcomeEvt Raw AppError)

/-- The stored-goal sync guard and item streaming tail of
`ApplyCmd::exec_internal` (src/crate/rt/src/cmds/sub/apply_cmd.rs lines
365-461): the goal check runs only when `apply_stored_state_sync` is `Goal`
or `Both` AND `apply_for` is `Ensure`; when it passes (or is skipped) the
item stream's outcomes follow. -/
def ApplyCmd.goalSyncAndStreamEvents {Raw : Type} (applyFor : ApplyFor)
    (sync : ApplyStoredStateSync) (o : ApplyCmdOracle Raw) : List (ApplyExecOutcomeEvt Raw) :=
  if (sync = ApplyStoredStateSync.goal ∨ sync = ApplyStoredStateSync.both)
      ∧ applyFor = ApplyFor.ensure then
    match o.statesGoalRead with
    | .error e => [.statesGoalReadCmdError e]
    | .ok statesGoalStored =>
      match o.statesGoalDiscover with
      | .cmdError e => [.discoverGoalCmdError e]
      | .itemErrors sv gv errs => [.discoverOutcomeError sv gv errs]
      | .ok statesGoal =>
        match ApplyCmd.statesInSync o.syncItems statesGoalStored statesGoal with
        | .ok true => o.itemEvents.map .itemApply
        | .ok false => [.statesGoalOutOfSync]
        | .error e => [.statesDowncastError e]
  else o.itemEvents.map .itemApply

/-- The producer side of `ApplyCmd::exec_internal`
(src/crate/rt/src/cmds/sub/apply_cmd.rs lines 261-464): read the stored
current states; when `apply_stored_state_sync` is `Current` or `Both`,
discover current states and run the sync check, sending
`StatesCurrentOutOfSync` and returning early when it fails; otherwise (sync
not required) `Clean` still discovers current states for `clean_prepare`;
then send `StatesCurrentStoredRead`, run the goal guard, and stream the
items.  The returned list is every event sent over `outcomes_tx`, in
order. -/
def ApplyCmd.execInternalEvents {Raw : Type} (applyFor : ApplyFor)
    (sync : ApplyStoredStateSync) (o : ApplyCmdOracle Raw) : List (ApplyExecOutcomeEvt Raw) :=
  match o.statesCurrentRead with
  | .error e => [.statesCurrentReadCmdError e]
  | .ok statesCurrentStored =>
    if sync = ApplyStoredStateSync.current ∨ sync = ApplyStoredStateSync.both then
      match o.statesCurrentDiscover with
      | .cmdError e => [.discoverCurrentCmdError e]
      | .itemErrors sv gv errs => [.discoverOutcomeError sv gv errs]
      | .ok statesCurrent =>
        match ApplyCmd.statesInSync o.syncItems statesCurrentStored statesCurrent with
        | .ok true =>
          .statesCurrentStoredRead statesCurrentStored ::
            ApplyCmd.goalSyncAndStreamEvents applyFor sync o
        | .ok false => [.statesCurrentOutOfSync]
        | .error e => [.statesDowncastError e]
    else
      match applyFor with
      | .ensure =>
        .statesCurrentStoredRead statesCurrentStored ::
          ApplyCmd.goalSyncAndStreamEvents applyFor sync o
      | .clean =>
        match o.statesCurrentDiscover with
        | .cmdError e => [.discoverCurrentCmdError e]
        | .itemErrors sv gv errs => [.discoverOutcomeError sv gv errs]
        | .ok _statesCurrent =>
          .statesCurrentStoredRead statesCurrentStored ::
            ApplyCmd.goalSyncAndStreamEvents applyFor sync o

/-- `ApplyCmd::exec_internal`'s outcome accumulator:
`(StatesMut<StatesTs>, StatesMut<Goal>)` plus the errors map. -/
structure ApplyCmdAcc (Raw : Type) where
  statesAppliedMut : List (String × Raw)
  statesGoalMut : List (String × Raw)
  errors : List (String × AppError)
deriving DecidableEq, Repr

/-- The item-apply arm of `ApplyCmd::exec_internal`'s collate closure
(src/crate/rt/src/cmds/sub/apply_cmd.rs lines 498-558): as the block-level
collate, over the `(applied, goal)` buckets. -/
def ApplyCmd.collateItemApply {Raw : Type} (applyFor : ApplyFor) (acc : ApplyCmdAcc Raw) :
    ItemApplyOutcomeEvt Raw AppError → ApplyCmdAcc Raw
  | .prepareFail itemId itemApplyPartialBoxed error =>
    let acc1 := { acc with errors := insertRaw acc.errors itemId error }
    match applyFor with
    | .ensure =>
      match itemApplyPartialBoxed.stateTarget with
      | some stateGoal =>
        { acc1 with statesGoalMut := insertRaw acc1.statesGoalMut itemId stateGoal }
      | none => acc1
    | .clean => acc1
  | .success itemId itemApplyBoxed =>
    let acc1 :=
      match itemApplyBoxed.stateApplied with
      | some stateApplied =>
        { acc with statesAppliedMut := insertRaw acc.statesAppliedMut itemId stateApplied }
      | none => acc
    match applyFor with
    | .ensure =>
      match itemApplyBoxed.stateTarget with
      | some stateGoal =>
        { acc1 with statesGoalMut := insertRaw acc1.statesGoalMut itemId stateGoal }
      | none => acc1
    | .clean => acc1
  | .fail itemId itemApplyBoxed error =>
    let acc1 := { acc with errors := insertRaw acc.errors itemId error }
    let acc2 :=
      match itemApplyBoxed.stateApplied with
      | some stateApplied =>
        { acc1 with statesAppliedMut := insertRaw acc1.statesAppliedMut itemId stateApplied }
      | none => acc1
    match applyFor with
    | .ensure =>
      match itemApplyBoxed.stateTarget with
      | some stateGoal =>
        { acc2 with statesGoalMut := insertRaw acc2.statesGoalMut itemId stateGoal }
      | none => acc2
    | .clean => acc2

/-- One step of `ApplyCmd::exec_internal`'s collate closure
(src/crate/rt/src/cmds/sub/apply_cmd.rs lines 465-562): the stored-read
event replaces the applied bucket, out-of-sync events raise
`ApplyCmdError::States*OutOfSync`, error events propagate their error, a
discover-outcome error swaps in the partially discovered buckets (its item
errors are dropped, as in the source), and item-apply events collate. -/
def ApplyCmd.collateOne {Raw : Type} (applyFor : ApplyFor) (acc : ApplyCmdAcc Raw) :
    ApplyExecOutcomeEvt Raw → Except AppError (ApplyCmdAcc Raw)
  | .statesCurrentStoredRead statesCurrentStored =>
    .ok { acc with statesAppliedMut := statesCurrentStored }
  | .statesCurrentOutOfSync => .error (.applyCmdError .statesCurrentOutOfSync)
  | .statesGoalOutOfSync => .error (.applyCmdError .statesGoalOutOfSync)
  | .statesCurrentReadCmdError e => .error e
  | .statesGoalReadCmdError e => .error e
  | .discoverCurrentCmdError e => .error e
  | .discoverGoalCmdError e => .error e
  | .statesDowncastError e => .error e
  | .discoverOutcomeError sv gv _errs =>
    .ok { acc with statesAppliedMut := sv, statesGoalMut := gv }
  | .itemApply outcome => .ok (ApplyCmd.collateItemApply applyFor acc outcome)

/-- Modelled from the spec: `CmdBase::exec`'s event loop (its file is not
among the sources) — collate each event in emission order; a collate error
aborts the command with that error (§7: raised errors abort the command). -/
def ApplyCmd.collate {Raw : Type} (applyFor : ApplyFor) (acc : ApplyCmdAcc Raw) :
    List (ApplyExecOutcomeEvt Raw) → Except AppError (ApplyCmdAcc Raw)
  | [] => .ok acc
  | evt :: rest =>
    match ApplyCmd.collateOne applyFor acc evt with
    | .error e => .error e
    | .ok acc' => ApplyCmd.collate applyFor acc' rest

/-- `ApplyCmd::exec_internal` end to end: the outcome starts as two empty
`StatesMut` buckets (src/crate/rt/src/cmds/sub/apply_cmd.rs line 259) and
the emitted events are collated in order. -/
def ApplyCmd.execInternalRun {Raw : Type} (applyFor : ApplyFor) (sync : ApplyStoredStateSync)
    (o : ApplyCmdOracle Raw) : Except AppError (ApplyCmdAcc Raw) :=
  ApplyCmd.collate applyFor
    { statesAppliedMut := [], statesGoalMut := [], errors := [] }
    (ApplyCmd.execInternalEvents applyFor sync o)

/-- A write of a stored state file (`serialize_current` / `serialize_goal`
in src/crate/rt/src/cmds/sub/apply_cmd.rs lines 934-969). -/
inductive SerializeEvt where
  | serializeCurrent : SerializeEvt
  | serializeGoal : SerializeEvt
deriving DecidableEq, Repr

/-- `ApplyCmd::exec_with` (src/crate/rt/src/cmds/sub/apply_cmd.rs lines
200-232): run `exec_internal` (`?` propagates its error, in which case no
state file is written), then serialize the post-apply current states, and —
only for `Ensure` — the goal states. -/
def ApplyCmd.execWithRun {Raw : Type} (applyFor : ApplyFor) (sync : ApplyStoredStateSync)
    (o : ApplyCmdOracle Raw) : Except AppError (ApplyCmdAcc Raw) × List SerializeEvt :=
  match ApplyCmd.execInternalRun applyFor sync o with
  | .error e => (.error e, [])
  | .ok acc =>
    (.ok acc,
      .serializeCurrent ::
        (match applyFor with
        | .ensure => [.serializeGoal]
        | .clean => []))

/-- Characterization of a successful `ItemSpecWrapper::ensure_prepare`: it
returns `Ok` exactly when all four discovery/check steps succeed, and the
resulting `ItemApply` is the fully populated record, with `state_applied`
pre-set to the current state exactly on `ExecNotRequired`. -/
theorem ItemSpecWrapper.ensurePrepare_ok_iff {S D E : Type} (item : ItemSpecModel S D E)
    (ia : ItemApply S D) :
    ItemSpecWrapper.ensurePrepare item = some (Except.ok ia) ↔
      ∃ sc sd dif ocs,
        item.stateCurrentResult = Except.ok sc ∧
        item.stateDesiredResult = Except.ok sd ∧
        item.stateDiffResult sc sd = Except.ok dif ∧
        item.applyCheckResult sc sd dif = Except.ok ocs ∧
        ia = { stateSaved := none
               stateCurrent := some sc
               stateTarget := some sd
               stateDiff := some dif
               opCheckStatus := some ocs
               stateApplied :=
                 match ocs with
                 | .execRequired _ => none
                 | .execNotRequired => some sc } := by
  constructor
  · intro h
    cases hsc : item.stateCurrentResult with
    | error e => simp [ItemSpecWrapper.ensurePrepare, ItemApplyPartial.new, hsc] at h
    | ok sc =>
      cases hsd : item.stateDesiredResult with
      | error e => simp [ItemSpecWrapper.ensurePrepare, ItemApplyPartial.new, hsc, hsd] at h
      | ok sd =>
        cases hdif : item.stateDiffResult sc sd with
        | error e =>
          simp [ItemSpecWrapper.ensurePrepare, ItemApplyPartial.new, hsc, hsd, hdif] at h
        | ok dif =>
          cases hocs : item.applyCheckResult sc sd dif with
          | error e =>
            simp [ItemSpecWrapper.ensurePrepare, ItemApplyPartial.new, hsc, hsd, hdif,
              hocs] at h
          | ok ocs =>
            simp [ItemSpecWrapper.ensurePrepare, ItemApplyPartial.new, hsc, hsd, hdif, hocs,
              ItemApply.tryFrom] at h
            exact ⟨sc, sd, dif, ocs, rfl, rfl, hdif, hocs, h.symm⟩
  · rintro ⟨sc, sd, dif, ocs, hsc, hsd, hdif, hocs, rfl⟩
    simp [ItemSpecWrapper.ensurePrepare, ItemApplyPartial.new, hsc, hsd, hdif, hocs,
      ItemApply.tryFrom]

/-- Characterization of a successful `ItemSpecWrapper::clean_prepare`: the
current state is the discovered one, or `state_clean` when discovery returns
`None`; the target is `state_clean`; diff and check must succeed; the record
is fully populated with `state_applied` pre-set exactly on
`ExecNotRequired`. -/
theorem ItemSpecWrapper.cleanPrepare_ok_iff {S D E : Type} (item : ItemSpecModel S D E)
    (ia : ItemApply S D) :
    ItemSpecWrapper.cleanPrepare item = some (Except.ok ia) ↔
      ∃ sc c dif ocs,
        (item.tryStateCurrentResult = Except.ok (some sc) ∨
          (item.tryStateCurrentResult = Except.ok none ∧ sc = c)) ∧
        item.stateCleanResult = Except.ok c ∧
        item.stateDiffResult sc c = Except.ok dif ∧
        item.applyCheckResult sc c dif = Except.ok ocs ∧
        ia = { stateSaved := none
               stateCurrent := some sc
               stateTarget := some c
               stateDiff := some dif
               opCheckStatus := some ocs
               stateApplied :=
                 match ocs with
                 | .execRequired _ => none
                 | .execNotRequired => some sc } := by
  constructor
  · intro h
    cases htc : item.tryStateCurrentResult with
    | error e => simp [ItemSpecWrapper.cleanPrepare, ItemApplyPartial.new, htc] at h
    | ok sco =>
      cases sco with
      | none =>
        cases hclean : item.stateCleanResult with
        | error e =>
          simp [ItemSpecWrapper.cleanPrepare, ItemApplyPartial.new, htc, hclean] at h
        | ok c =>
          cases hdif : item.stateDiffResult c c with
          | error e =>
            simp [ItemSpecWrapper.cleanPrepare, ItemApplyPartial.new, htc, hclean, hdif] at h
          | ok dif =>
            cases hocs : item.applyCheckResult c c dif with
            | error e =>
              simp [ItemSpecWrapper.cleanPrepare, ItemApplyPartial.new, htc, hclean, hdif,
                hocs] at h
            | ok ocs =>
              simp [ItemSpecWrapper.cleanPrepare, ItemApplyPartial.new, htc, hclean, hdif,
                hocs, ItemApply.tryFrom] at h
              exact ⟨c, c, dif, ocs, Or.inr ⟨rfl, rfl⟩, rfl, hdif, hocs, h.symm⟩
      | some sc =>
        cases hclean : item.stateCleanResult with
        | error e =>
          simp [ItemSpecWrapper.cleanPrepare, ItemApplyPartial.new, htc, hclean] at h
        | ok c =>
          cases hdif : item.stateDiffResult sc c with
          | error e =>
            simp [ItemSpecWrapper.cleanPrepare, ItemApplyPartial.new, htc, hclean, hdif] at h
          | ok dif =>
            cases hocs : item.applyCheckResult sc c dif with
            | error e =>
              simp [ItemSpecWrapper.cleanPrepare, ItemApplyPartial.new, htc, hclean, hdif,
                hocs] at h
            | ok ocs =>
              simp [ItemSpecWrapper.cleanPrepare, ItemApplyPartial.new, htc, hclean, hdif,
                hocs, ItemApply.tryFrom] at h
              exact ⟨sc, c, dif, ocs, Or.inl rfl, rfl, hdif, hocs, h.symm⟩
  · rintro ⟨sc, c, dif, ocs, htc, hclean, hdif, hocs, rfl⟩
    rcases htc with htc | ⟨htc, rfl⟩ <;>
      simp [ItemSpecWrapper.cleanPrepare, ItemApplyPartial.new, htc, hclean, hdif, hocs,
        ItemApply.tryFrom]

/-- Characterization of a successful `ItemWrapper::clean_prepare` (the
newer, `StatesCurrent`-driven preparation): the current state is this item's
entry in the pre-discovered map, or `state_clean` when the entry is absent;
the rest as in `ItemSpecWrapper::clean_prepare`. -/
theorem ItemWrapper.cleanPrepare_prediscovered_ok_iff {S D E : Type} (item : ItemSpecModel S D E)
    (stateCurrentPre : Option S) (ia : ItemApply S D) :
    ItemWrapper.cleanPrepare item stateCurrentPre = some (Except.ok ia) ↔
      ∃ sc c dif ocs,
        (stateCurrentPre = some sc ∨ (stateCurrentPre = none ∧ sc = c)) ∧
        item.stateCleanResult = Except.ok c ∧
        item.stateDiffResult sc c = Except.ok dif ∧
        item.applyCheckResult sc c dif = Except.ok ocs ∧
        ia = { stateSaved := none
               stateCurrent := some sc
               stateTarget := some c
               stateDiff := some dif
               opCheckStatus := some ocs
               stateApplied :=
                 match ocs with
                 | .execRequired _ => none
                 | .execNotRequired => some sc } := by
  constructor
  · intro h
    cases stateCurrentPre with
    | none =>
      cases hclean : item.stateCleanResult with
      | error e => simp [ItemWrapper.cleanPrepare, ItemApplyPartial.new, hclean] at h
      | ok c =>
        cases hdif : item.stateDiffResult c c with
        | error e =>
          simp [ItemWrapper.cleanPrepare, ItemApplyPartial.new, hclean, hdif] at h
        | ok dif =>
          cases hocs : item.applyCheckResult c c dif with
          | error e =>
            simp [ItemWrapper.cleanPrepare, ItemApplyPartial.new, hclean, hdif, hocs] at h
          | ok ocs =>
            simp [ItemWrapper.cleanPrepare, ItemApplyPartial.new, hclean, hdif, hocs,
              ItemApply.tryFrom] at h
            exact ⟨c, c, dif, ocs, Or.inr ⟨rfl, rfl⟩, rfl, hdif, hocs, h.symm⟩
    | some sc =>
      cases hclean : item.stateCleanResult with
      | error e => simp [ItemWrapper.cleanPrepare, ItemApplyPartial.new, hclean] at h
      | ok c =>
        cases hdif : item.stateDiffResult sc c with
        | error e =>
          simp [ItemWrapper.cleanPrepare, ItemApplyPartial.new, hclean, hdif] at h
        | ok dif =>
          cases hocs : item.applyCheckResult sc c dif with
          | error e =>
            simp [ItemWrapper.cleanPrepare, ItemApplyPartial.new, hclean, hdif, hocs] at h
          | ok ocs =>
            simp [ItemWrapper.cleanPrepare, ItemApplyPartial.new, hclean, hdif, hocs,
              ItemApply.tryFrom] at h
            exact ⟨sc, c, dif, ocs, Or.inl rfl, rfl, hdif, hocs, h.symm⟩
  · rintro ⟨sc, c, dif, ocs, hpre, hclean, hdif, hocs, rfl⟩
    rcases hpre with rfl | ⟨rfl, rfl⟩ <;>
      simp [ItemWrapper.cleanPrepare, ItemApplyPartial.new, hclean, hdif, hocs,
        ItemApply.tryFrom]

/-- C1: `apply` (and `apply_dry`) runs only when `apply_check` returned
`ExecRequired`: when the check returns `ExecNotRequired` during
`ensure_prepare` or `clean_prepare`, the prepared `ItemApply` has
`state_applied = Some(state_current)`, and a subsequent `apply_exec` /
`apply_exec_dry` on it returns `Ok` unchanged, without invoking the item's
`apply` / `apply_dry` function (the result does not depend on it). -/
theorem applyExec_only_when_exec_required {S D E : Type} (item : ItemSpecModel S D E) :
    (∀ ia : ItemApply S D,
      ItemSpecWrapper.ensurePrepare item = some (Except.ok ia) →
      ia.opCheckStatus = some ApplyCheck.execNotRequired →
      ia.stateApplied = ia.stateCurrent ∧ ia.stateCurrent.isSome = true) ∧
    (∀ ia : ItemApply S D,
      ItemSpecWrapper.cleanPrepare item = some (Except.ok ia) →
      ia.opCheckStatus = some ApplyCheck.execNotRequired →
      ia.stateApplied = ia.stateCurrent ∧ ia.stateCurrent.isSome = true) ∧
    (∀ ia : ItemApply S D,
      ia.opCheckStatus = some ApplyCheck.execNotRequired →
      ItemSpecWrapper.applyExec item ia = some (Except.ok ia) ∧
      ItemSpecWrapper.applyExecDry item ia = some (Except.ok ia)) ∧
    (∀ (ia : ItemApply S D) (f g : S → S → D → Except E S),
      ia.opCheckStatus = some ApplyCheck.execNotRequired →
      ItemSpecWrapper.applyExec { item with applyResult := f } ia =
        ItemSpecWrapper.applyExec { item with applyResult := g } ia ∧
      ItemSpecWrapper.applyExecDry { item with applyDryResult := f } ia =
        ItemSpecWrapper.applyExecDry { item with applyDryResult := g } ia) := by
  refine ⟨?_, ?_, ?_, ?_⟩
  · intro ia h hocs
    rcases (ItemSpecWrapper.ensurePrepare_ok_iff item ia).mp h with
      ⟨sc, sd, dif, ocs, _, _, _, _, rfl⟩
    simp only [ItemApply.opCheckStatus] at hocs
    cases hocs
    simp
  · intro ia h hocs
    rcases (ItemSpecWrapper.cleanPrepare_ok_iff item ia).mp h with
      ⟨sc, c, dif, ocs, _, _, _, _, rfl⟩
    simp only [ItemApply.opCheckStatus] at hocs
    cases hocs
    simp
  · intro ia hocs
    constructor <;>
      simp [ItemSpecWrapper.applyExec, ItemSpecWrapper.applyExecDry, hocs]
  · intro ia f g hocs
    constructor <;>
      simp [ItemSpecWrapper.applyExec, ItemSpecWrapper.applyExecDry, hocs]

/-- Item used by witnesses: every lifecycle function succeeds, the check
returns `ExecNotRequired`, and the apply functions error — so a successful
apply exec proves they were not invoked. -/
def witnessItemNoExec : ItemSpecModel Nat Nat Nat :=
  { stateCleanResult := .ok 0
    tryStateCurrentResult := .ok (some 5)
    stateCurrentResult := .ok 5
    stateDesiredResult := .ok 5
    stateDiffResult := fun a b => .ok (b - a)
    applyCheckResult := fun _ _ _ => .ok .execNotRequired
    applyResult := fun _ _ _ => .error 99
    applyDryResult := fun _ _ _ => .error 99 }

/-- The `ItemApply` that `ensure_prepare` produces for `witnessItemNoExec`. -/
def witnessItemApplyNoExec : ItemApply Nat Nat :=
  { stateSaved := none
    stateCurrent := some 5
    stateTarget := some 5
    stateDiff := some 0
    opCheckStatus := some .execNotRequired
    stateApplied := some 5 }

/-- Witness for C1 at a concrete item. -/
theorem applyExec_only_when_exec_required_witness :
    (witnessItemApplyNoExec.stateApplied = witnessItemApplyNoExec.stateCurrent ∧
      witnessItemApplyNoExec.stateCurrent.isSome = true) ∧
    ItemSpecWrapper.applyExec witnessItemNoExec witnessItemApplyNoExec =
      some (Except.ok witnessItemApplyNoExec) :=
  ⟨(applyExec_only_when_exec_required witnessItemNoExec).1 witnessItemApplyNoExec rfl rfl,
    ((applyExec_only_when_exec_required witnessItemNoExec).2.2.1 witnessItemApplyNoExec rfl).1⟩

/-- C9: every `ItemApply` from a successful `ensure_prepare` or
`clean_prepare` has `state_current`, `state_target`, `state_diff` and
`apply_check` all populated; a failing preparation returns the error paired
with an `ItemApplyPartial` holding exactly the fields discovered before the
failing step. -/
theorem itemApply_invariant_and_failure_partials {S D E : Type} (item : ItemSpecModel S D E) :
    (∀ ia : ItemApply S D,
      ItemSpecWrapper.ensurePrepare item = some (Except.ok ia) →
      ia.stateCurrent.isSome = true ∧ ia.stateTarget.isSome = true ∧
        ia.stateDiff.isSome = true ∧ ia.opCheckStatus.isSome = true) ∧
    (∀ ia : ItemApply S D,
      ItemSpecWrapper.cleanPrepare item = some (Except.ok ia) →
      ia.stateCurrent.isSome = true ∧ ia.stateTarget.isSome = true ∧
        ia.stateDiff.isSome = true ∧ ia.opCheckStatus.isSome = true) ∧
    (∀ e, item.stateCurrentResult = Except.error e →
      ItemSpecWrapper.ensurePrepare item =
        some (Except.error (e, (ItemApplyPartial.new : ItemApplyPartial S D)))) ∧
    (∀ sc e, item.stateCurrentResult = Except.ok sc →
      item.stateDesiredResult = Except.error e →
      ItemSpecWrapper.ensurePrepare item =
        some (Except.error (e, ({ stateCurrent := some sc } : ItemApplyPartial S D)))) ∧
    (∀ sc sd e, item.stateCurrentResult = Except.ok sc →
      item.stateDesiredResult = Except.ok sd →
      item.stateDiffResult sc sd = Except.error e →
      ItemSpecWrapper.ensurePrepare item =
        some (Except.error (e,
          ({ stateCurrent := some sc, stateTarget := some sd } : ItemApplyPartial S D)))) ∧
    (∀ sc sd dif e, item.stateCurrentResult = Except.ok sc →
      item.stateDesiredResult = Except.ok sd →
      item.stateDiffResult sc sd = Except.ok dif →
      item.applyCheckResult sc sd dif = Except.error e →
      ItemSpecWrapper.ensurePrepare item =
        some (Except.error (e,
          ({ stateCurrent := some sc, stateTarget := some sd, stateDiff := some dif } : ItemApplyPartial S D)))) ∧
    (∀ e, item.tryStateCurrentResult = Except.error e →
      ItemSpecWrapper.cleanPrepare item =
        some (Except.error (e, (ItemApplyPartial.new : ItemApplyPartial S D)))) ∧
    (∀ e, item.tryStateCurrentResult = Except.ok none →
      item.stateCleanResult = Except.error e →
      ItemSpecWrapper.cleanPrepare item =
        some (Except.error (e, (ItemApplyPartial.new : ItemApplyPartial S D)))) ∧
    (∀ sc e, item.tryStateCurrentResult = Except.ok (some sc) →
      item.stateCleanResult = Except.error e →
      ItemSpecWrapper.cleanPrepare item =
        some (Except.error (e, ({ stateCurrent := some sc } : ItemApplyPartial S D)))) ∧
    (∀ sc c e, item.tryStateCurrentResult = Except.ok (some sc) →
      item.stateCleanResult = Except.ok c →
      item.stateDiffResult sc c = Except.error e →
      ItemSpecWrapper.cleanPrepare item =
        some (Except.error (e,
          ({ stateCurrent := some sc, stateTarget := some c } : ItemApplyPartial S D)))) ∧
    (∀ c e, item.tryStateCurrentResult = Except.ok none →
      item.stateCleanResult = Except.ok c →
      item.stateDiffResult c c = Except.error e →
      ItemSpecWrapper.cleanPrepare item =
        some (Except.error (e,
          ({ stateCurrent := some c, stateTarget := some c } : ItemApplyPartial S D)))) ∧
    (∀ sc c dif e, item.tryStateCurrentResult = Except.ok (some sc) →
      item.stateCleanResult = Except.ok c →
      item.stateDiffResult sc c = Except.ok dif →
      item.applyCheckResult sc c dif = Except.error e →
      ItemSpecWrapper.cleanPrepare item =
        some (Except.error (e,
          ({ stateCurrent := some sc, stateTarget := some c, stateDiff := some dif } : ItemApplyPartial S D)))) ∧
    (∀ c dif e, item.tryStateCurrentResult = Except.ok none →
      item.stateCleanResult = Except.ok c →
      item.stateDiffResult c c = Except.ok dif →
      item.applyCheckResult c c dif = Except.error e →
      ItemSpecWrapper.cleanPrepare item =
        some (Except.error (e,
          ({ stateCurrent := some c, stateTarget := some c, stateDiff := some dif } : ItemApplyPartial S D)))) := by
  refine ⟨?_, ?_, ?_, ?_, ?_, ?_, ?_, ?_, ?_, ?_, ?_, ?_, ?_⟩
  · intro ia h
    rcases (ItemSpecWrapper.ensurePrepare_ok_iff item ia).mp h with
      ⟨sc, sd, dif, ocs, _, _, _, _, rfl⟩
    simp
  · intro ia h
    rcases (ItemSpecWrapper.cleanPrepare_ok_iff item ia).mp h with
      ⟨sc, c, dif, ocs, _, _, _, _, rfl⟩
    simp
  · intro e h
    simp [ItemSpecWrapper.ensurePrepare, ItemApplyPartial.new, h]
  · intro sc e h1 h2
    simp [ItemSpecWrapper.ensurePrepare, ItemApplyPartial.new, h1, h2]
  · intro sc sd e h1 h2 h3
    simp [ItemSpecWrapper.ensurePrepare, ItemApplyPartial.new, h1, h2, h3]
  · intro sc sd dif e h1 h2 h3 h4
    simp [ItemSpecWrapper.ensurePrepare, ItemApplyPartial.new, h1, h2, h3, h4]
  · intro e h
    simp [ItemSpecWrapper.cleanPrepare, ItemApplyPartial.new, h]
  · intro e h1 h2
    simp [ItemSpecWrapper.cleanPrepare, ItemApplyPartial.new, h1, h2]
  · intro sc e h1 h2
    simp [ItemSpecWrapper.cleanPrepare, ItemApplyPartial.new, h1, h2]
  · intro sc c e h1 h2 h3
    simp [ItemSpecWrapper.cleanPrepare, ItemApplyPartial.new, h1, h2, h3]
  · intro c e h1 h2 h3
    simp [ItemSpecWrapper.cleanPrepare, ItemApplyPartial.new, h1, h2, h3]
  · intro sc c dif e h1 h2 h3 h4
    simp [ItemSpecWrapper.cleanPrepare, ItemApplyPartial.new, h1, h2, h3, h4]
  · intro c dif e h1 h2 h3 h4
    simp [ItemSpecWrapper.cleanPrepare, ItemApplyPartial.new, h1, h2, h3, h4]

/-- Item used by the C9 witness: `state_desired` fails after `state_current`
succeeded. -/
def witnessItemDesiredFails : ItemSpecModel Nat Nat Nat :=
  { stateCleanResult := .ok 0
    tryStateCurrentResult := .ok (some 3)
    stateCurrentResult := .ok 3
    stateDesiredResult := .error 42
    stateDiffResult := fun a b => .ok (b - a)
    applyCheckResult := fun _ _ _ => .ok (.execRequired .unknown)
    applyResult := fun _ _ _ => .ok 3
    applyDryResult := fun _ _ _ => .ok 3 }

/-- Witness for C9 at concrete items: the fully-populated success record and
the exact partial of a `state_desired` failure. -/
theorem itemApply_invariant_and_failure_partials_witness :
    (witnessItemApplyNoExec.stateCurrent.isSome = true ∧
      witnessItemApplyNoExec.stateTarget.isSome = true ∧
      witnessItemApplyNoExec.stateDiff.isSome = true ∧
      witnessItemApplyNoExec.opCheckStatus.isSome = true) ∧
    ItemSpecWrapper.ensurePrepare witnessItemDesiredFails =
      some (Except.error (42, ({ stateCurrent := some 3 } : ItemApplyPartial Nat Nat))) :=
  ⟨(itemApply_invariant_and_failure_partials witnessItemNoExec).1 witnessItemApplyNoExec rfl,
    (itemApply_invariant_and_failure_partials witnessItemDesiredFails).2.2.2.1 3 42 rfl rfl⟩

/-- C8: during clean preparation, `state_current` is the item's entry in the
pre-discovered `StatesCurrent`; when the item has no discovered current
state, the preparation falls back to `state_clean` as the current state and
still succeeds with all fields populated (given the remaining steps
succeed). -/
theorem cleanPrepare_stateCurrent_from_prediscovered_with_fallback {S D E : Type}
    (item : ItemSpecModel S D E) :
    (∀ (s : S) (ia : ItemApply S D),
      ItemWrapper.cleanPrepare item (some s) = some (Except.ok ia) →
      ia.stateCurrent = some s) ∧
    (∀ (s c dif : _) (ocs : OpCheckStatus),
      item.stateCleanResult = Except.ok c →
      item.stateDiffResult s c = Except.ok dif →
      item.applyCheckResult s c dif = Except.ok ocs →
      ItemWrapper.cleanPrepare item (some s) =
        some (Except.ok
          { stateSaved := none
            stateCurrent := some s
            stateTarget := some c
            stateDiff := some dif
            opCheckStatus := some ocs
            stateApplied :=
              match ocs with
              | .execRequired _ => none
              | .execNotRequired => some s })) ∧
    (∀ (c : S) (dif : D) (ocs : OpCheckStatus),
      item.stateCleanResult = Except.ok c →
      item.stateDiffResult c c = Except.ok dif →
      item.applyCheckResult c c dif = Except.ok ocs →
      ItemWrapper.cleanPrepare item none =
        some (Except.ok
          { stateSaved := none
            stateCurrent := some c
            stateTarget := some c
            stateDiff := some dif
            opCheckStatus := some ocs
            stateApplied :=
              match ocs with
              | .execRequired _ => none
              | .execNotRequired => some c })) := by
  refine ⟨?_, ?_, ?_⟩
  · intro s ia h
    rcases (ItemWrapper.cleanPrepare_prediscovered_ok_iff item (some s) ia).mp h with
      ⟨sc, c, dif, ocs, hpre, _, _, _, rfl⟩
    rcases hpre with hpre | ⟨hpre, _⟩
    · cases hpre
      rfl
    · cases hpre
  · intro s c dif ocs hclean hdif hocs
    exact (ItemWrapper.cleanPrepare_prediscovered_ok_iff item (some s) _).mpr
      ⟨s, c, dif, ocs, Or.inl rfl, hclean, hdif, hocs, rfl⟩
  · intro c dif ocs hclean hdif hocs
    exact (ItemWrapper.cleanPrepare_prediscovered_ok_iff item none _).mpr
      ⟨c, c, dif, ocs, Or.inr ⟨rfl, rfl⟩, hclean, hdif, hocs, rfl⟩

/-- Witness for C8 at a concrete item with no discovered current state: the
fallback to `state_clean` succeeds with all fields populated. -/
theorem cleanPrepare_prediscovered_fallback_witness :
    ItemWrapper.cleanPrepare
        { stateCleanResult := .ok 0
          tryStateCurrentResult := .ok none
          stateCurrentResult := .error 1
          stateDesiredResult := .ok 2
          stateDiffResult := fun a b => .ok (a + b)
          applyCheckResult := fun _ _ _ => .ok .execNotRequired
          applyResult := fun _ _ _ => .ok 0
          applyDryResult := fun _ _ _ => .ok 0 : ItemSpecModel Nat Nat Nat }
        none =
      some (Except.ok
        { stateSaved := none
          stateCurrent := some 0
          stateTarget := some 0
          stateDiff := some 0
          opCheckStatus := some .execNotRequired
          stateApplied := some 0 }) :=
  (cleanPrepare_stateCurrent_from_prediscovered_with_fallback _).2.2 0 0 .execNotRequired
    rfl rfl rfl

/-- C3 counterexample: with the argument type PRESENT in the store and a
mapping function that returns `None` on it, `try_map` returns `Ok(None)` and
`map` returns `FromMap`, so neither coincides with "some argument type is
absent from the store" — the claimed "iff absent" is false. -/
theorem mappingFn_absent_iff_counterexample :
    ¬ ((MappingFnImpl.tryMap none "T" "A0" (fun (_ : Nat) => (none : Option Nat))
          (Except.ok 37) [] = Except.ok none) ↔
        (Except.ok 37 : Except BorrowFail Nat) = Except.error BorrowFail.valueNotFound) ∧
    ¬ ((MappingFnImpl.map none "T" "A0" (fun (_ : Nat) => (none : Option Nat))
          (Except.ok 37) [] = Except.error (ParamsResolveError.fromMap [] "A0")) ↔
        (Except.ok 37 : Except BorrowFail Nat) = Except.error BorrowFail.valueNotFound) :=
  ⟨fun h => by simpa using h.mp rfl, fun h => by simpa using h.mp rfl⟩

/-- C3 amended: `try_map` returns `Ok(None)` iff the argument type is absent
from the store OR the argument is present and the mapping function returns
`None` on it; `map` returns `FromMap` under exactly the same condition; and
a borrow conflict on the argument yields `FromMapBorrowConflict` in both
flavors. -/
theorem mappingFn_try_resolve_none_iff {T A0 : Type} (fieldName : Option String)
    (tTypeName a0TypeName : String) (fnMap : A0 → Option T)
    (a0Borrow : Except BorrowFail A0) (ctx : ValueResolutionCtx) :
    (MappingFnImpl.tryMap fieldName tTypeName a0TypeName fnMap a0Borrow ctx =
        Except.ok none ↔
      a0Borrow = Except.error BorrowFail.valueNotFound ∨
        ∃ a0, a0Borrow = Except.ok a0 ∧ fnMap a0 = none) ∧
    (MappingFnImpl.map fieldName tTypeName a0TypeName fnMap a0Borrow ctx =
        Except.error (ParamsResolveError.fromMap
          (MappingFnImpl.ctxPushed fieldName tTypeName ctx) a0TypeName) ↔
      a0Borrow = Except.error BorrowFail.valueNotFound ∨
        ∃ a0, a0Borrow = Except.ok a0 ∧ fnMap a0 = none) ∧
    (MappingFnImpl.tryMap fieldName tTypeName a0TypeName fnMap
        (Except.error BorrowFail.borrowConflictImm) ctx =
      Except.error (ParamsResolveError.fromMapBorrowConflict
        (MappingFnImpl.ctxPushed fieldName tTypeName ctx) a0TypeName)) ∧
    (MappingFnImpl.tryMap fieldName tTypeName a0TypeName fnMap
        (Except.error BorrowFail.borrowConflictMut) ctx =
      Except.error (ParamsResolveError.fromMapBorrowConflict
        (MappingFnImpl.ctxPushed fieldName tTypeName ctx) a0TypeName)) ∧
    (MappingFnImpl.map fieldName tTypeName a0TypeName fnMap
        (Except.error BorrowFail.borrowConflictImm) ctx =
      Except.error (ParamsResolveError.fromMapBorrowConflict
        (MappingFnImpl.ctxPushed fieldName tTypeName ctx) a0TypeName)) ∧
    (MappingFnImpl.map fieldName tTypeName a0TypeName fnMap
        (Except.error BorrowFail.borrowConflictMut) ctx =
      Except.error (ParamsResolveError.fromMapBorrowConflict
        (MappingFnImpl.ctxPushed fieldName tTypeName ctx) a0TypeName)) := by
  refine ⟨?_, ?_, ?_, ?_, ?_, ?_⟩
  · cases a0Borrow with
    | ok a0 =>
      cases hf : fnMap a0 with
      | none => simp [MappingFnImpl.tryMap, hf]
      | some t => simp [MappingFnImpl.tryMap, hf]
    | error bf => cases bf <;> simp [MappingFnImpl.tryMap]
  · cases a0Borrow with
    | ok a0 =>
      cases hf : fnMap a0 with
      | none => simp [MappingFnImpl.map, hf]
      | some t => simp [MappingFnImpl.map, hf]
    | error bf => cases bf <;> simp [MappingFnImpl.map]
  · simp [MappingFnImpl.tryMap]
  · simp [MappingFnImpl.tryMap]
  · simp [MappingFnImpl.map]
  · simp [MappingFnImpl.map]

/-- C6: the sync check decides item by item — both states absent is
tolerated (the fold continues), exactly one present makes the whole check
out-of-sync immediately, both present defer to the item's `state_eq`, and
the first out-of-sync item (or `state_eq` error) determines the overall
result regardless of the remaining items. -/
theorem statesInSync_per_item_semantics {Raw E : Type} (it : SyncItemModel Raw E)
    (rest : List (SyncItemModel Raw E)) (statesStored states : List (String × Raw)) :
    (getRaw statesStored it.id = none → getRaw states it.id = none →
      ApplyCmd.statesInSync (it :: rest) statesStored states =
        ApplyCmd.statesInSync rest statesStored states) ∧
    (∀ v, getRaw statesStored it.id = none → getRaw states it.id = some v →
      ApplyCmd.statesInSync (it :: rest) statesStored states = Except.ok false) ∧
    (∀ v, getRaw statesStored it.id = some v → getRaw states it.id = none →
      ApplyCmd.statesInSync (it :: rest) statesStored states = Except.ok false) ∧
    (∀ sv dv, getRaw statesStored it.id = some sv → getRaw states it.id = some dv →
      (it.stateEq sv dv = Except.ok true →
        ApplyCmd.statesInSync (it :: rest) statesStored states =
          ApplyCmd.statesInSync rest statesStored states) ∧
      (it.stateEq sv dv = Except.ok false →
        ApplyCmd.statesInSync (it :: rest) statesStored states = Except.ok false) ∧
      (∀ e, it.stateEq sv dv = Except.error e →
        ApplyCmd.statesInSync (it :: rest) statesStored states = Except.error e)) ∧
    ApplyCmd.statesInSync ([] : List (SyncItemModel Raw E)) statesStored states =
      Except.ok true := by
  refine ⟨?_, ?_, ?_, ?_, ?_⟩
  · intro h1 h2
    simp [ApplyCmd.statesInSync, h1, h2]
  · intro v h1 h2
    simp [ApplyCmd.statesInSync, h1, h2]
  · intro v h1 h2
    simp [ApplyCmd.statesInSync, h1, h2]
  · intro sv dv h1 h2
    refine ⟨?_, ?_, ?_⟩
    · intro heq
      simp [ApplyCmd.statesInSync, h1, h2, heq]
    · intro heq
      simp [ApplyCmd.statesInSync, h1, h2, heq]
    · intro e heq
      simp [ApplyCmd.statesInSync, h1, h2, heq]
  · simp [ApplyCmd.statesInSync]

/-- Witness for C6 at concrete inputs: a stored entry with no discovered
counterpart makes the check out-of-sync, regardless of the items after
it. -/
theorem statesInSync_per_item_semantics_witness :
    ApplyCmd.statesInSync
        [⟨"a", fun x y => Except.ok (x = y)⟩,
          ⟨"b", fun (_ _ : Nat) => (Except.error (AppError.app 3) : Except AppError Bool)⟩]
        [("a", 0)] [] =
      Except.ok false :=
  (statesInSync_per_item_semantics
      ⟨"a", fun x y => Except.ok (x = y)⟩
      [⟨"b", fun (_ _ : Nat) => (Except.error (AppError.app 3) : Except AppError Bool)⟩]
      [("a", 0)] []).2.2.1 0 rfl rfl

/-- Composition of the block fold: after a prefix that runs without failure,
the fold continues through the suffix at the shifted index, and the traces
concatenate. -/
theorem CmdExecution.cmdBlocksExecFrom_append_of_ok {Res V : Type}
    (pre : List (CmdBlockModel Res V)) :
    ∀ (idx : Nat) (res res1 : Res) (t1 : List Nat),
    CmdExecution.cmdBlocksExecFrom pre idx res = (res1, none, t1) →
    ∀ post : List (CmdBlockModel Res V),
    CmdExecution.cmdBlocksExecFrom (pre ++ post) idx res =
      ((CmdExecution.cmdBlocksExecFrom post (idx + pre.length) res1).1,
        (CmdExecution.cmdBlocksExecFrom post (idx + pre.length) res1).2.1,
        t1 ++ (CmdExecution.cmdBlocksExecFrom post (idx + pre.length) res1).2.2) := by
  induction pre with
  | nil =>
    intro idx res res1 t1 h post
    simp [CmdExecution.cmdBlocksExecFrom] at h
    obtain ⟨rfl, rfl⟩ := h
    simp
  | cons b rest ih =>
    intro idx res res1 t1 h post
    simp only [CmdExecution.cmdBlocksExecFrom] at h
    cases hb : b.exec res with
    | mk res' errOpt =>
      rw [hb] at h
      cases errOpt with
      | some err => simp at h
      | none =>
        dsimp only at h
        obtain ⟨rf, ff, ran, hrest⟩ :
            ∃ rf ff ran, CmdExecution.cmdBlocksExecFrom rest (idx + 1) res' = (rf, ff, ran) :=
          ⟨_, _, _, rfl⟩
        rw [hrest] at h
        simp only [Prod.mk.injEq] at h
        obtain ⟨rfl, hff, ht⟩ := h
        subst hff
        subst ht
        have hih := ih (idx + 1) res' rf ran hrest post
        have hlen : idx + 1 + rest.length = idx + (rest.length + 1) := by omega
        simp only [List.cons_append, CmdExecution.cmdBlocksExecFrom, hb]
        simp only [List.append_eq]
        rw [hih, hlen]
        simp

/-- A block whose `exec` fails stops the fold at its own index. -/
theorem CmdExecution.cmdBlocksExecFrom_cons_err {Res V : Type} (b : CmdBlockModel Res V)
    (post : List (CmdBlockModel Res V)) (idx : Nat) (res res2 : Res)
    (err : CmdBlockError V) (hb : b.exec res = (res2, some err)) :
    CmdExecution.cmdBlocksExecFrom (b :: post) idx res = (res2, some (idx, err), [idx]) := by
  simp [CmdExecution.cmdBlocksExecFrom, hb]

/-- A fold that runs without failure executed every block, in order. -/
theorem CmdExecution.cmdBlocksExecFrom_ok_trace {Res V : Type}
    (blocks : List (CmdBlockModel Res V)) :
    ∀ (idx : Nat) (res res' : Res) (tr : List Nat),
    CmdExecution.cmdBlocksExecFrom blocks idx res = (res', none, tr) →
    tr = List.range' idx blocks.length := by
  induction blocks with
  | nil =>
    intro idx res res' tr h
    simp [CmdExecution.cmdBlocksExecFrom] at h
    simp [h.2.symm]
  | cons b rest ih =>
    intro idx res res' tr h
    simp only [CmdExecution.cmdBlocksExecFrom] at h
    cases hb : b.exec res with
    | mk resb errOpt =>
      rw [hb] at h
      cases errOpt with
      | some err => simp at h
      | none =>
        dsimp only at h
        obtain ⟨rf, ff, ran, hrest⟩ :
            ∃ rf ff ran, CmdExecution.cmdBlocksExecFrom rest (idx + 1) resb = (rf, ff, ran) :=
          ⟨_, _, _, rfl⟩
        rw [hrest] at h
        simp only [Prod.mk.injEq] at h
        obtain ⟨rfl, hff, ht⟩ := h
        subst hff
        subst ht
        simp [List.range', ih (idx + 1) resb rf ran hrest]

/-- C2: blocks run strictly in order and the fold short-circuits at the
first failing block — no later block executes; `Exec` errors make the
execution return that error, `Interrupt` / `ItemError` return the carried
`CmdOutcome` (built by the block wrapper as `BlockInterrupted` /
`ItemError`), `InputFetch` returns the diagnostic built from the preceding
blocks, and when every block succeeds the execution returns `Complete` with
`execution_outcome_fetch` of the final Resource store. -/
theorem cmdExecution_blocks_in_order_and_outcome_mapping {Res V I B : Type}
    (executionOutcomeFetch : Res → V) :
    (∀ (blocks : List (CmdBlockModel Res V)) (res resF : Res) (tr : List Nat),
      CmdExecution.cmdBlocksExec blocks res = (resF, none, tr) →
      tr = List.range blocks.length ∧
        CmdExecution.cmdOutcomeTask blocks executionOutcomeFetch res =
          Except.ok (CmdOutcome.complete (executionOutcomeFetch resF))) ∧
    (∀ (pre post : List (CmdBlockModel Res V)) (b : CmdBlockModel Res V)
      (res res1 res2 : Res) (t1 : List Nat) (err : CmdBlockError V),
      CmdExecution.cmdBlocksExec pre res = (res1, none, t1) →
      b.exec res1 = (res2, some err) →
      CmdExecution.cmdBlocksExec (pre ++ b :: post) res =
        (res2, some (pre.length, err), t1 ++ [pre.length])) ∧
    (∀ (blocks : List (CmdBlockModel Res V)) (res resF : Res) (tr : List Nat) (i : Nat)
      (e : AppError),
      CmdExecution.cmdBlocksExec blocks res = (resF, some (i, CmdBlockError.exec e), tr) →
      CmdExecution.cmdOutcomeTask blocks executionOutcomeFetch res = Except.error e) ∧
    (∀ (blocks : List (CmdBlockModel Res V)) (res resF : Res) (tr : List Nat) (i : Nat)
      (o : CmdOutcome V),
      CmdExecution.cmdBlocksExec blocks res = (resF, some (i, CmdBlockError.interrupt o), tr) →
      CmdExecution.cmdOutcomeTask blocks executionOutcomeFetch res = Except.ok o) ∧
    (∀ (blocks : List (CmdBlockModel Res V)) (res resF : Res) (tr : List Nat) (i : Nat)
      (o : CmdOutcome V),
      CmdExecution.cmdBlocksExec blocks res = (resF, some (i, CmdBlockError.itemError o), tr) →
      CmdExecution.cmdOutcomeTask blocks executionOutcomeFetch res = Except.ok o) ∧
    (∀ (blocks : List (CmdBlockModel Res V)) (res resF : Res) (tr : List Nat) (i : Nat)
      (fe : ResourceFetchError),
      CmdExecution.cmdBlocksExec blocks res = (resF, some (i, CmdBlockError.inputFetch fe), tr) →
      CmdExecution.cmdOutcomeTask blocks executionOutcomeFetch res =
        Except.error (AppError.cmdExecutionError
          (CmdExecutionErrorBuilder.build blocks i fe))) ∧
    (∀ (fnPartialExecHandler : B → V) (blockExecResult : I → Except AppError (CmdBlockOutcome B))
      (input : I) (so : StreamOutcome B),
      blockExecResult input = Except.ok (CmdBlockOutcome.itemWise so []) →
      so.state = StreamOutcomeState.interrupted →
      CmdBlockWrapper.execModel fnPartialExecHandler (Except.ok input) blockExecResult =
        some (Except.error (CmdBlockError.interrupt (CmdOutcome.blockInterrupted
          (StreamOutcome.mapValue fnPartialExecHandler so))))) ∧
    (∀ (fnPartialExecHandler : B → V) (blockExecResult : I → Except AppError (CmdBlockOutcome B))
      (input : I) (so : StreamOutcome B) (errors : List (String × AppError)),
      blockExecResult input = Except.ok (CmdBlockOutcome.itemWise so errors) →
      errors ≠ [] →
      CmdBlockWrapper.execModel fnPartialExecHandler (Except.ok input) blockExecResult =
        some (Except.error (CmdBlockError.itemError (CmdOutcome.itemError
          (StreamOutcome.mapValue fnPartialExecHandler so) errors)))) := by
  refine ⟨?_, ?_, ?_, ?_, ?_, ?_, ?_, ?_⟩
  · intro blocks res resF tr h
    constructor
    · have := CmdExecution.cmdBlocksExecFrom_ok_trace blocks 0 res resF tr h
      simpa [List.range_eq_range'] using this
    · simp [CmdExecution.cmdOutcomeTask, CmdExecution.cmdBlocksExec] at h ⊢
      rw [h]
      simp [CmdExecution.outcomeExtract]
  · intro pre post b res res1 res2 t1 err h hb
    have happ := CmdExecution.cmdBlocksExecFrom_append_of_ok pre 0 res res1 t1 h (b :: post)
    have hcons := CmdExecution.cmdBlocksExecFrom_cons_err b post (0 + pre.length) res1 res2 err hb
    simp only [CmdExecution.cmdBlocksExec] at h ⊢
    rw [happ, hcons]
    simp
  · intro blocks res resF tr i e h
    simp only [CmdExecution.cmdOutcomeTask, CmdExecution.cmdBlocksExec] at h ⊢
    rw [h]
    simp [CmdExecution.outcomeExtract]
  · intro blocks res resF tr i o h
    simp only [CmdExecution.cmdOutcomeTask, CmdExecution.cmdBlocksExec] at h ⊢
    rw [h]
    simp [CmdExecution.outcomeExtract]
  · intro blocks res resF tr i o h
    simp only [CmdExecution.cmdOutcomeTask, CmdExecution.cmdBlocksExec] at h ⊢
    rw [h]
    simp [CmdExecution.outcomeExtract]
  · intro blocks res resF tr i fe h
    simp only [CmdExecution.cmdOutcomeTask, CmdExecution.cmdBlocksExec] at h ⊢
    rw [h]
    simp [CmdExecution.outcomeExtract]
  · intro f blockExecResult input so hexec hstate
    simp [CmdBlockWrapper.execModel, hexec, hstate]
  · intro f blockExecResult input so errors hexec herrors
    simp [CmdBlockWrapper.execModel, hexec, herrors]

/-- Block used by witnesses: increments the store's counter and succeeds. -/
def witnessBlockOk : CmdBlockModel Nat Nat :=
  { exec := fun n => (n + 1, none)
    inputTypeNames := ["StatesCurrent"]
    outcomeTypeNames := ["StatesCurrentStored"] }

/-- Block used by witnesses: fails with an application error. -/
def witnessBlockErr : CmdBlockModel Nat Nat :=
  { exec := fun n => (n, some (CmdBlockError.exec (AppError.app 5)))
    inputTypeNames := []
    outcomeTypeNames := [] }

/-- Witness for C2 at a concrete three-block execution whose second block
fails: the third block does not run and the execution returns the error. -/
theorem cmdExecution_blocks_in_order_witness :
    CmdExecution.cmdBlocksExec [witnessBlockOk, witnessBlockErr, witnessBlockOk] 0 =
      (1, some (1, CmdBlockError.exec (AppError.app 5)), [0, 1]) ∧
    CmdExecution.cmdOutcomeTask [witnessBlockOk, witnessBlockErr, witnessBlockOk] id 0 =
      Except.error (AppError.app 5) :=
  ⟨(cmdExecution_blocks_in_order_and_outcome_mapping (I := Unit) (B := Unit) id).2.1
      [witnessBlockOk] [witnessBlockOk] witnessBlockErr 0 1 1 [0]
      (CmdBlockError.exec (AppError.app 5)) rfl rfl,
    (cmdExecution_blocks_in_order_and_outcome_mapping (I := Unit) (B := Unit) id).2.2.1
      [witnessBlockOk, witnessBlockErr, witnessBlockOk] 0 1 [0, 1] 1 (AppError.app 5) rfl⟩

/-- Single-outcome read block over an interrupt-flag store (`true` means an
interrupt has been requested): like `StatesCurrentReadCmdBlock`, its `exec`
never consults the interruptibility handle. -/
def witnessReadBlock : CmdBlockModel Bool Nat :=
  { exec := fun interruptFlag => (interruptFlag, none)
    inputTypeNames := ["StatesCurrentFile"]
    outcomeTypeNames := ["StatesCurrentStored"] }

/-- C4 (code evaluation): with an interrupt requested before the execution
starts (`true` store), the block fold still executes the block — index `0`
appears in the invocation trace and the execution completes.
`cmd_outcome_task_interruptible` consults no interruptibility handle between
blocks: its block fold takes none, and the source carries a TODO for exactly
this check (src/crate/cmd_rt/src/cmd_execution.rs lines 213-214), so "no new
block starts after an interrupt" does not hold at block boundaries. -/
theorem cmdExecution_no_block_boundary_interrupt_check :
    CmdExecution.cmdBlocksExec [witnessReadBlock] true = (true, none, [0]) ∧
    CmdExecution.cmdOutcomeTask [witnessReadBlock] (fun _ => 0) true =
      Except.ok (CmdOutcome.complete 0) := by
  constructor <;> rfl

/-- Traversal with no interrupt delivered: every item is processed, in
order. -/
theorem ItemGraph.streamInterruptibleGo_no_interrupt {A : Type} :
    ∀ (items : List A) (k : Nat) (acc : List A),
    ItemGraph.streamInterruptibleGo (fun _ => false) k acc items =
      { state := StreamOutcomeState.finished, value := acc.reverse ++ items } := by
  intro items
  induction items with
  | nil => intro k acc; simp [ItemGraph.streamInterruptibleGo]
  | cons x xs ih =>
    intro k acc
    simp [ItemGraph.streamInterruptibleGo, ih (k + 1) (x :: acc)]

/-- C5: the apply engine streams the item graph forward when the target is
`Ensure` (the target states tag is `Goal`) and in reverse when the target is
`Clean` (tag `Clean`); both directions pass the same `BUFFERED_FUTURES_MAX`
concurrency bound, in `ApplyExecCmdBlock::exec` as well as in
`ApplyCmd::exec_internal`. -/
theorem applyExec_stream_direction_and_bound {A : Type} :
    ApplyExecCmdBlock.streamInvocation ApplyFor.ensure =
      { limit := bufferedFuturesMax, reverse := false, interruptible := true } ∧
    ApplyExecCmdBlock.streamInvocation ApplyFor.clean =
      { limit := bufferedFuturesMax, reverse := true, interruptible := true } ∧
    ApplyCmd.streamInvocation ApplyFor.ensure =
      { limit := bufferedFuturesMax, reverse := false, interruptible := false } ∧
    ApplyCmd.streamInvocation ApplyFor.clean =
      { limit := bufferedFuturesMax, reverse := true, interruptible := false } ∧
    StatesTsApply.applyFor StatesTsApply.ensured = ApplyFor.ensure ∧
    StatesTsApply.applyFor StatesTsApply.ensuredDry = ApplyFor.ensure ∧
    StatesTsApply.applyFor StatesTsApply.cleaned = ApplyFor.clean ∧
    StatesTsApply.applyFor StatesTsApply.cleanedDry = ApplyFor.clean ∧
    StatesTsApply.tsTarget StatesTsApply.ensured = TsTargetTag.goal ∧
    StatesTsApply.tsTarget StatesTsApply.ensuredDry = TsTargetTag.goal ∧
    StatesTsApply.tsTarget StatesTsApply.cleaned = TsTargetTag.clean ∧
    StatesTsApply.tsTarget StatesTsApply.cleanedDry = TsTargetTag.clean ∧
    (∀ items : List A,
      ApplyExecCmdBlock.execStream ApplyFor.ensure (fun _ => false) items =
        { state := StreamOutcomeState.finished, value := items }) ∧
    (∀ items : List A,
      ApplyExecCmdBlock.execStream ApplyFor.clean (fun _ => false) items =
        { state := StreamOutcomeState.finished, value := items.reverse }) := by
  refine ⟨rfl, rfl, rfl, rfl, rfl, rfl, rfl, rfl, rfl, rfl, rfl, rfl, ?_, ?_⟩
  · intro items
    simp [ApplyExecCmdBlock.execStream, ItemGraph.streamInterruptible,
      ItemGraph.streamInterruptibleGo_no_interrupt]
  · intro items
    simp [ApplyExecCmdBlock.execStream, ItemGraph.streamInterruptible,
      ItemGraph.streamInterruptibleGo_no_interrupt]

/-- C10: in `ApplyExecCmdBlock::outcome_collate` with a `Clean` target
(`Cleaned` / `CleanedDry`), the target-states bucket — initialized from the
block input — and the previous-states bucket are never modified by any
outcome partial; `PrepareFail` updates only the errors map, `Success` /
`Fail` only the errors map and the applied-states bucket; only an `Ensure`
target writes `state_target` entries into the target bucket. -/
theorem applyExecCmdBlock_clean_target_frame {Raw E : Type} :
    (∀ (input : List (String × Raw) × List (String × Raw)),
      (ApplyExecCmdBlock.outcomeAccInit (E := E) input).statesTargetMut = input.2 ∧
      (ApplyExecCmdBlock.outcomeAccInit (E := E) input).statesPrevious = input.1 ∧
      (ApplyExecCmdBlock.outcomeAccInit (E := E) input).statesAppliedMut = input.1 ∧
      (ApplyExecCmdBlock.outcomeAccInit (E := E) input).errors = []) ∧
    (∀ (acc : ApplyExecCmdBlockAcc Raw E) (p : ItemApplyOutcomeEvt Raw E),
      (ApplyExecCmdBlock.outcomeCollate StatesTsApply.cleaned acc p).statesTargetMut =
        acc.statesTargetMut ∧
      (ApplyExecCmdBlock.outcomeCollate StatesTsApply.cleaned acc p).statesPrevious =
        acc.statesPrevious ∧
      (ApplyExecCmdBlock.outcomeCollate StatesTsApply.cleanedDry acc p).statesTargetMut =
        acc.statesTargetMut ∧
      (ApplyExecCmdBlock.outcomeCollate StatesTsApply.cleanedDry acc p).statesPrevious =
        acc.statesPrevious) ∧
    (∀ (acc : ApplyExecCmdBlockAcc Raw E) (itemId : String)
      (pp : ItemApplyPartial Raw Raw) (e : E),
      ApplyExecCmdBlock.outcomeCollate StatesTsApply.cleaned acc
          (ItemApplyOutcomeEvt.prepareFail itemId pp e) =
        { acc with errors := insertRaw acc.errors itemId e }) ∧
    (∀ (acc : ApplyExecCmdBlockAcc Raw E) (itemId : String) (ia : ItemApply Raw Raw)
      (s : Raw),
      ApplyExecCmdBlock.outcomeCollate StatesTsApply.cleaned acc
          (ItemApplyOutcomeEvt.success itemId { ia with stateApplied := some s }) =
        { acc with statesAppliedMut := insertRaw acc.statesAppliedMut itemId s }) ∧
    (∀ (acc : ApplyExecCmdBlockAcc Raw E) (itemId : String) (ia : ItemApply Raw Raw),
      ApplyExecCmdBlock.outcomeCollate StatesTsApply.cleaned acc
          (ItemApplyOutcomeEvt.success itemId { ia with stateApplied := none }) = acc) ∧
    (∀ (acc : ApplyExecCmdBlockAcc Raw E) (itemId : String) (ia : ItemApply Raw Raw)
      (s : Raw) (e : E),
      ApplyExecCmdBlock.outcomeCollate StatesTsApply.cleaned acc
          (ItemApplyOutcomeEvt.fail itemId { ia with stateApplied := some s } e) =
        { acc with
            errors := insertRaw acc.errors itemId e
            statesAppliedMut := insertRaw acc.statesAppliedMut itemId s }) ∧
    (∀ (acc : ApplyExecCmdBlockAcc Raw E) (itemId : String) (ia : ItemApply Raw Raw)
      (st : Raw),
      (ApplyExecCmdBlock.outcomeCollate StatesTsApply.ensured acc
          (ItemApplyOutcomeEvt.success itemId { ia with stateTarget := some st })
        ).statesTargetMut =
        insertRaw acc.statesTargetMut itemId st) := by
  refine ⟨?_, ?_, ?_, ?_, ?_, ?_, ?_⟩
  · intro input
    simp [ApplyExecCmdBlock.outcomeAccInit]
  · intro acc p
    cases p with
    | prepareFail itemId pp e =>
      cases hpt : pp.stateTarget <;>
        simp [ApplyExecCmdBlock.outcomeCollate, StatesTsApply.applyFor, hpt]
    | success itemId ia =>
      cases hsa : ia.stateApplied <;>
        simp [ApplyExecCmdBlock.outcomeCollate, StatesTsApply.applyFor, hsa]
    | fail itemId ia e =>
      cases hsa : ia.stateApplied <;>
        simp [ApplyExecCmdBlock.outcomeCollate, StatesTsApply.applyFor, hsa]
  · intro acc itemId pp e
    simp [ApplyExecCmdBlock.outcomeCollate, StatesTsApply.applyFor]
  · intro acc itemId ia s
    simp [ApplyExecCmdBlock.outcomeCollate, StatesTsApply.applyFor]
  · intro acc itemId ia
    simp [ApplyExecCmdBlock.outcomeCollate, StatesTsApply.applyFor]
  · intro acc itemId ia s e
    simp [ApplyExecCmdBlock.outcomeCollate, StatesTsApply.applyFor]
  · intro acc itemId ia st
    cases hsa : ia.stateApplied <;>
      simp [ApplyExecCmdBlock.outcomeCollate, StatesTsApply.applyFor, hsa]

/-- For a `Clean` apply, the goal-sync guard is skipped unconditionally: its
condition requires `apply_for` to be `Ensure`. -/
theorem ApplyCmd.goalSyncAndStreamEvents_clean {Raw : Type} (sync : ApplyStoredStateSync)
    (o : ApplyCmdOracle Raw) :
    ApplyCmd.goalSyncAndStreamEvents ApplyFor.clean sync o =
      o.itemEvents.map ApplyExecOutcomeEvt.itemApply := by
  simp [ApplyCmd.goalSyncAndStreamEvents]

/-- C7: a stored-vs-discovered out-of-sync verdict terminates the apply
command with `ApplyCmdError::StatesCurrentOutOfSync` (resp.
`StatesGoalOutOfSync`) before any item outcome is emitted, and no stored
state file is written; the stored-goal sync check runs only when the apply
target is `Ensure` — a `Clean` execution never emits `StatesGoalOutOfSync`
and never consults the goal read/discover oracles. -/
theorem applyCmd_out_of_sync_aborts_before_apply {Raw : Type} :
    (∀ (applyFor : ApplyFor) (sync : ApplyStoredStateSync) (o : ApplyCmdOracle Raw)
      (stored sc : List (String × Raw)),
      (sync = ApplyStoredStateSync.current ∨ sync = ApplyStoredStateSync.both) →
      o.statesCurrentRead = Except.ok stored →
      o.statesCurrentDiscover = DiscoverResult.ok sc →
      ApplyCmd.statesInSync o.syncItems stored sc = Except.ok false →
      ApplyCmd.execInternalEvents applyFor sync o =
          [ApplyExecOutcomeEvt.statesCurrentOutOfSync] ∧
        ApplyCmd.execWithRun applyFor sync o =
          (Except.error (AppError.applyCmdError ApplyCmdError.statesCurrentOutOfSync), [])) ∧
    (∀ (o : ApplyCmdOracle Raw) (stored gstored g : List (String × Raw)),
      o.statesCurrentRead = Except.ok stored →
      o.statesGoalRead = Except.ok gstored →
      o.statesGoalDiscover = DiscoverResult.ok g →
      ApplyCmd.statesInSync o.syncItems gstored g = Except.ok false →
      ApplyCmd.execInternalEvents ApplyFor.ensure ApplyStoredStateSync.goal o =
          [ApplyExecOutcomeEvt.statesCurrentStoredRead stored,
            ApplyExecOutcomeEvt.statesGoalOutOfSync] ∧
        ApplyCmd.execWithRun ApplyFor.ensure ApplyStoredStateSync.goal o =
          (Except.error (AppError.applyCmdError ApplyCmdError.statesGoalOutOfSync), [])) ∧
    (∀ (sync : ApplyStoredStateSync) (o : ApplyCmdOracle Raw),
      ApplyExecOutcomeEvt.statesGoalOutOfSync ∉
        ApplyCmd.execInternalEvents ApplyFor.clean sync o) ∧
    (∀ (sync : ApplyStoredStateSync) (o : ApplyCmdOracle Raw)
      (gr : Except AppError (List (String × Raw))) (gd : DiscoverResult Raw),
      ApplyCmd.execInternalEvents ApplyFor.clean sync
          { o with statesGoalRead := gr, statesGoalDiscover := gd } =
        ApplyCmd.execInternalEvents ApplyFor.clean sync o) := by
  refine ⟨?_, ?_, ?_, ?_⟩
  · intro applyFor sync o stored sc hsync hread hdisc hins
    have hevents : ApplyCmd.execInternalEvents applyFor sync o =
        [ApplyExecOutcomeEvt.statesCurrentOutOfSync] := by
      rcases hsync with rfl | rfl <;>
        simp [ApplyCmd.execInternalEvents, hread, hdisc, hins]
    refine ⟨hevents, ?_⟩
    simp [ApplyCmd.execWithRun, ApplyCmd.execInternalRun, hevents, ApplyCmd.collate,
      ApplyCmd.collateOne]
  · intro o stored gstored g hread hgread hgdisc hins
    have hevents : ApplyCmd.execInternalEvents ApplyFor.ensure ApplyStoredStateSync.goal o =
        [ApplyExecOutcomeEvt.statesCurrentStoredRead stored,
          ApplyExecOutcomeEvt.statesGoalOutOfSync] := by
      simp [ApplyCmd.execInternalEvents, ApplyCmd.goalSyncAndStreamEvents, hread, hgread,
        hgdisc, hins]
    refine ⟨hevents, ?_⟩
    simp [ApplyCmd.execWithRun, ApplyCmd.execInternalRun, hevents, ApplyCmd.collate,
      ApplyCmd.collateOne]
  · intro sync o
    simp only [ApplyCmd.execInternalEvents]
    cases hcr : o.statesCurrentRead with
    | error e => simp
    | ok stored =>
      by_cases hs : sync = ApplyStoredStateSync.current ∨ sync = ApplyStoredStateSync.both
      · simp only [if_pos hs]
        cases hcd : o.statesCurrentDiscover with
        | cmdError e => simp
        | itemErrors sv gv errs => simp
        | ok scur =>
          cases hins : ApplyCmd.statesInSync o.syncItems stored scur with
          | error e => simp [hins]
          | ok b =>
            cases b
            · simp [hins]
            · simp [hins, ApplyCmd.goalSyncAndStreamEvents_clean, List.mem_map]
      · simp only [if_neg hs]
        cases hcd : o.statesCurrentDiscover with
        | cmdError e => simp
        | itemErrors sv gv errs => simp
        | ok scur => simp [ApplyCmd.goalSyncAndStreamEvents_clean, List.mem_map]
  · intro sync o gr gd
    simp [ApplyCmd.execInternalEvents, ApplyCmd.goalSyncAndStreamEvents_clean]

/-- Oracle used by the C7 witness: the stored current state of item `a` is
`0` but the freshly discovered state is `1`. -/
def witnessOracleOutOfSync : ApplyCmdOracle Nat :=
  { statesCurrentRead := .ok [("a", 0)]
    statesCurrentDiscover := .ok [("a", 1)]
    statesGoalRead := .ok []
    statesGoalDiscover := .ok []
    syncItems := [⟨"a", fun x y => Except.ok (x = y)⟩]
    itemEvents :=
      [ItemApplyOutcomeEvt.success "a"
        { stateSaved := none
          stateCurrent := some 1
          stateTarget := some 2
          stateDiff := some 1
          opCheckStatus := some (ApplyCheck.execRequired ProgressLimit.unknown)
          stateApplied := some 2 }] }

/-- Witness for C7 at a concrete out-of-sync oracle: the command errors with
`StatesCurrentOutOfSync`, emits no item outcome, and writes no state
file. -/
theorem applyCmd_out_of_sync_aborts_witness :
    ApplyCmd.execInternalEvents ApplyFor.ensure ApplyStoredStateSync.current
        witnessOracleOutOfSync =
      [ApplyExecOutcomeEvt.statesCurrentOutOfSync] ∧
    ApplyCmd.execWithRun ApplyFor.ensure ApplyStoredStateSync.current witnessOracleOutOfSync =
      (Except.error (AppError.applyCmdError ApplyCmdError.statesCurrentOutOfSync), []) :=
  applyCmd_out_of_sync_aborts_before_apply.1 ApplyFor.ensure ApplyStoredStateSync.current
    witnessOracleOutOfSync [("a", 0)] [("a", 1)] (Or.inl rfl) rfl rfl rfl
